import Mathlib

/-!
# CUPesp32: the SmartMug event detector (`ESP32Code.cpp`)

A shallow embedding of `setup()` and `loop()` of `ESP32Code.cpp`.

Modelling decisions

* `float` values (`lastWeight`, `accDelta`, the scale reading) are exact rationals: every
  reading is a finite number and `+`, `-` do not round.
* The section on the special values of `float` embeds `loop()` a second time over `FloatX`,
  which adds the infinities and NaN of IEEE 754 to the exact finite values; it agrees with the
  first embedding on finite values.  Rounding is outside both.
* `unsigned long` values (`millis()`, `lastRead`, `lastEventTime`) are natural numbers; the
  subtraction `now - lastRead` is the 32-bit wrapping subtraction `subUL`.
* One iteration of `loop()` reads three things from its environment: `millis()`, the reed pin
  and (when the sampling gate passes) the scale.  They are the fields of `Input`.
* BLE notifications and serial lines are returned as a list of `Effect`s.
-/

namespace CUPesp32

/-! ## Constants -/

/-- The constant `MEASURE_MS` (2000): the scale is sampled every 2 s. -/
def MEASURE_MS : Nat := 2000

/-- The constant `STABLE_MS` (5000): the net change is emitted after 5 s of quiet. -/
def STABLE_MS : Nat := 5000

/-- The constant `NOISE_G` (10.0f): smaller changes are ignored as jitter. -/
def NOISE_G : ℚ := 10

/-- Number of values of an `unsigned long` (32 bits on the ESP32). -/
def ULONG_MOD : Nat := 4294967296

/-- Subtraction of two `unsigned long` values: the result wraps modulo `2^32`. -/
def subUL (a b : Nat) : Nat :=
  (a % ULONG_MOD + (ULONG_MOD - b % ULONG_MOD)) % ULONG_MOD

/-- The conversion `(int)x` of a `float`: the fractional part is discarded (truncation toward
zero).  C++ defines it when the truncated value fits in `int`. -/
def castInt (x : ℚ) : Int :=
  Int.tdiv x.num x.den

/-! ## State, inputs and effects -/

/-- The globals of the sketch that `loop()` reads and writes. -/
structure State where
  lastWeight : ℚ
  accDelta : ℚ
  lastRead : Nat
  lastEventTime : Nat
  lastLidClosed : Bool
  deviceConnected : Bool
deriving DecidableEq, Repr

/-- What one iteration of `loop()` reads from its environment. -/
structure Input where
  /-- The value returned by `millis()`. -/
  now : Nat
  /-- The value of `digitalRead(REED_PIN) == LOW`. -/
  pinLow : Bool
  /-- The value `scale.getWeight()` returns (read only when the sampling gate passes). -/
  weight : ℚ
deriving DecidableEq, Repr

/-- Observable actions of `loop()`. -/
inductive Effect where
  /-- The calls `lidChar->setValue(msg.c_str()); lidChar->notify();` -/
  | lidNotify (value : String)
  /-- The calls `drinkChar->setValue(tag.c_str()); drinkChar->notify();` -/
  | drinkNotify (value : String)
  /-- The call `Serial.println(line)`. -/
  | serialPrintln (line : String)
deriving DecidableEq, Repr

/-- The result of one block of `loop()`: the message or tag it built (if it built one) and the
actions it performed. -/
structure Emit where
  text : Option String
  effects : List Effect
deriving DecidableEq, Repr

/-- What one iteration of `loop()` produced. -/
structure Output where
  /-- The `msg` of the lid block, when the block ran. -/
  lidMsg : Option String
  /-- Whether the flush block ran. -/
  flushed : Bool
  /-- The `tag` of the flush block, when the block ran and `tag.length()` was not zero. -/
  tag : Option String
  effects : List Effect
deriving DecidableEq, Repr

/-! ## `setup()` and the connection callbacks -/

/-- The part of `setup()` that initialises the globals: `w` is the first `scale.getWeight()`,
`pinLow` the first reed reading, `t1` and `t2` the two `millis()` calls.  When
`scale.begin()` fails `setup()` never returns (`while (1) delay(1000);`): the result is
`none`. -/
def setup (scaleFound : Bool) (w : ℚ) (pinLow : Bool) (t1 t2 : Nat) : Option State :=
  if scaleFound then
    some { lastWeight := w, accDelta := 0, lastRead := t1, lastEventTime := t2,
           lastLidClosed := pinLow, deviceConnected := false }
  else none

/-- The callback `MyServerCallbacks::onConnect`. -/
def onConnect (s : State) : State := { s with deviceConnected := true }

/-- The callback `MyServerCallbacks::onDisconnect`. -/
def onDisconnect (s : State) : State := { s with deviceConnected := false }

/-! ## The three blocks of `loop()` -/

/-- The suffix `deviceConnected ? " (Notified)" : " (Not connected)"`. -/
def connSuffix (deviceConnected : Bool) : String :=
  if deviceConnected then " (Notified)" else " (Not connected)"

/-- Lines 110-121: lid polling. -/
def lidBlock (s : State) (lidClosed : Bool) : State × Emit :=
  if lidClosed ≠ s.lastLidClosed then
    let msg := if lidClosed then "LID_CLOSED" else "LID_OPEN"
    ({ s with lastLidClosed := lidClosed },
     { text := some msg,
       effects := (if s.deviceConnected then [Effect.lidNotify msg] else []) ++
         [Effect.serialPrintln (">> " ++ msg ++ connSuffix s.deviceConnected)] })
  else (s, { text := none, effects := [] })

/-- Lines 124-133: weight sampling. -/
def sampleBlock (s : State) (now : Nat) (w : ℚ) : State :=
  if subUL now s.lastRead ≥ MEASURE_MS then
    let d := w - s.lastWeight
    if |d| > NOISE_G then
      { s with lastRead := now, accDelta := s.accDelta + d, lastEventTime := now,
               lastWeight := w }
    else
      { s with lastRead := now, lastWeight := w }
  else s

/-- Lines 139-153: the tag built by the four-way branch (`ts` is `String(now)`); the empty
string when no branch is taken. -/
def flushTag (ml : ℚ) (lastLidClosed : Bool) (ts : String) : String :=
  if ml < 0 ∧ lastLidClosed = false then
    "DRINKING_" ++ toString (castInt (-ml)) ++ "_ml@" ++ ts
  else if ml > 0 ∧ lastLidClosed = false then
    "ADDING_" ++ toString (castInt ml) ++ "_ml@" ++ ts
  else if ml < 0 ∧ lastLidClosed = true then
    "THROWING_" ++ toString (castInt (-ml)) ++ "_ml@" ++ ts
  else if ml > 0 ∧ lastLidClosed = true then
    "ADDING_" ++ toString (castInt ml) ++ "_ml@" ++ ts
  else ""

/-- The guard of line 136. -/
def flushGuard (s : State) (now : Nat) : Prop :=
  s.accDelta ≠ 0 ∧ subUL now s.lastEventTime ≥ STABLE_MS

instance (s : State) (now : Nat) : Decidable (flushGuard s now) := by
  unfold flushGuard; infer_instance

/-- Lines 136-164: flush of the accumulated change. -/
def flushBlock (s : State) (now : Nat) : State × Bool × Emit :=
  if flushGuard s now then
    let ml := s.accDelta
    let tag := flushTag ml s.lastLidClosed (toString now)
    ({ s with accDelta := 0, lastEventTime := now }, true,
     if tag.length ≠ 0 then
       { text := some tag,
         effects := (if s.deviceConnected then [Effect.drinkNotify tag] else []) ++
           [Effect.serialPrintln (">> " ++ tag ++ connSuffix s.deviceConnected)] }
     else { text := none, effects := [] })
  else (s, false, { text := none, effects := [] })

/-! ## `loop()` and runs of it -/

/-- The state in which the flush guard of an iteration is evaluated: after the lid block and
the sampling block. -/
def beforeFlush (s : State) (inp : Input) : State :=
  sampleBlock (lidBlock s inp.pinLow).1 inp.now inp.weight

/-- One iteration of `loop()` (the final `delay(50)` only lets time pass). -/
def loop (s : State) (inp : Input) : State × Output :=
  let l := lidBlock s inp.pinLow
  let s2 := sampleBlock l.1 inp.now inp.weight
  let f := flushBlock s2 inp.now
  (f.1, { lidMsg := l.2.text, flushed := f.2.1, tag := f.2.2.text,
          effects := l.2.effects ++ f.2.2.effects })

/-- The state after a sequence of iterations. -/
def run (s : State) : List Input → State
  | [] => s
  | inp :: rest => run (loop s inp).1 rest

/-- The outputs of a sequence of iterations, in order. -/
def outputs (s : State) : List Input → List Output
  | [] => []
  | inp :: rest => (loop s inp).2 :: outputs (loop s inp).1 rest

/-! ## Concrete states and inputs used in the examples -/

/-- The globals after `setup()` with a 500 g reading, the lid open and `millis()` still 0. -/
def mug500 : State :=
  { lastWeight := 500, accDelta := 0, lastRead := 0, lastEventTime := 0,
    lastLidClosed := false, deviceConnected := false }

/-- A state with a pending change of -50.5 g (500 g to 449.5 g, sampled at 2000 ms), last
sampled at 6000 ms. -/
def pendingHalf : State :=
  { lastWeight := 899 / 2, accDelta := -101 / 2, lastRead := 6000, lastEventTime := 2000,
    lastLidClosed := false, deviceConnected := true }

/-- A state with a pending change of -50 g (500 g to 450 g, sampled at 2000 ms), last sampled
at 6000 ms. -/
def pendingFifty : State :=
  { lastWeight := 450, accDelta := -50, lastRead := 6000, lastEventTime := 2000,
    lastLidClosed := false, deviceConnected := true }

/-- An iteration at 7000 ms with the lid open. -/
def at7000 : Input := { now := 7000, pinLow := false, weight := 450 }

/-- The deltas `d = w - lastWeight` of exactly those iterations of a run whose sampling gate
passes and whose `|d|` exceeds the noise threshold, in order.  `lastWeight` and `lastRead` are
the reading and the time of the latest sample taken. -/
def acceptedDeltas (lastWeight : ℚ) (lastRead : Nat) : List Input → List ℚ
  | [] => []
  | inp :: rest =>
    if subUL inp.now lastRead ≥ MEASURE_MS then
      (if |inp.weight - lastWeight| > NOISE_G then [inp.weight - lastWeight] else []) ++
        acceptedDeltas inp.weight inp.now rest
    else acceptedDeltas lastWeight lastRead rest

/-- No iteration of the run takes a significant sample: each one is blocked by the sampling
gate or reads a weight within the noise threshold of the latest sample. -/
def quiet (lastWeight : ℚ) (lastRead : Nat) : List Input → Prop
  | [] => True
  | inp :: rest =>
    if subUL inp.now lastRead ≥ MEASURE_MS then
      |inp.weight - lastWeight| ≤ NOISE_G ∧ quiet inp.weight inp.now rest
    else quiet lastWeight lastRead rest

instance quietDecidable (lastWeight : ℚ) (lastRead : Nat) (inps : List Input) :
    Decidable (quiet lastWeight lastRead inps) := by
  induction inps generalizing lastWeight lastRead with
  | nil => exact isTrue trivial
  | cons inp rest ih =>
    unfold quiet
    split
    · exact @instDecidableAnd _ _ _ (ih _ _)
    · exact ih _ _

/-- A run from `mug500` without a flush: a blocked iteration, a drop of 20 g, a blocked
iteration, a rise of 5 g (noise) and a drop of 25 g. -/
def interleavedRun : List Input :=
  [ { now := 1000, pinLow := false, weight := 300 },
    { now := 2000, pinLow := false, weight := 480 },
    { now := 2500, pinLow := true, weight := 100 },
    { now := 4000, pinLow := true, weight := 485 },
    { now := 6000, pinLow := false, weight := 460 } ]

/-- A quiet continuation after the flush of `pendingFifty` at 7000 ms: a blocked iteration, a
noise sample, and iterations long after the stability window. -/
def quietRun : List Input :=
  [ { now := 7050, pinLow := false, weight := 0 },
    { now := 8000, pinLow := false, weight := 455 },
    { now := 20000, pinLow := true, weight := 448 },
    { now := 4000000000, pinLow := true, weight := 440 } ]

/-- An iteration at 100 ms that reads the lid closed. -/
def lidClosing : Input := { now := 100, pinLow := true, weight := 500 }

/-- Three further iterations with the lid still closed. -/
def lidStaysClosed : List Input :=
  [ { now := 150, pinLow := true, weight := 500 },
    { now := 200, pinLow := true, weight := 500 },
    { now := 250, pinLow := true, weight := 500 } ]

/-- The state after each iteration of a run together with what the iteration produced. -/
def trace (s : State) : List Input → List (State × Output)
  | [] => []
  | inp :: rest => loop s inp :: trace (loop s inp).1 rest

/-- The end-to-end scenario: `loop()` runs at 0, 50, 100, ..., 7000 ms with the lid open;
`scale k` is what the scale would return in iteration `k` (at `50 * k` ms). -/
def scenario (scale : Nat → ℚ) : List Input :=
  (List.range 141).map fun k => { now := 50 * k, pinLow := false, weight := scale k }

/-- A scale that returns 440, 441 and 440 at 2000, 4000 and 6000 ms (iterations 40, 80 and
120) and 0 whenever it is not read. -/
def scenarioScale (k : Nat) : ℚ :=
  if k = 40 then 440 else if k = 80 then 441 else if k = 120 then 440 else 0

/-- The kind named in the tag, as the classification table gives it: `ADDING` for a gain,
`THROWING` for a loss with the lid closed, `DRINKING` for a loss with the lid open. -/
def kindName (accDelta : ℚ) (lidClosed : Bool) : String :=
  if accDelta > 0 then "ADDING" else if lidClosed then "THROWING" else "DRINKING"

/-- Two states have the same weight-channel variables. -/
def SameWeightState (s1 s2 : State) : Prop :=
  s1.lastWeight = s2.lastWeight ∧ s1.accDelta = s2.accDelta ∧ s1.lastRead = s2.lastRead ∧
    s1.lastEventTime = s2.lastEventTime

instance (s1 s2 : State) : Decidable (SameWeightState s1 s2) := by
  unfold SameWeightState; infer_instance

/-- A drop of 60 g is sampled at 2000 ms with the lid open; the lid is closed from 3000 ms
on. -/
def lidClosesWhilePending : List Input :=
  [ { now := 2000, pinLow := false, weight := 440 },
    { now := 3000, pinLow := true, weight := 440 },
    { now := 4000, pinLow := true, weight := 440 },
    { now := 6000, pinLow := true, weight := 440 } ]

/-- The same timestamps and weights as `lidClosesWhilePending` with the lid closed
throughout. -/
def lidClosedThroughout : List Input :=
  [ { now := 2000, pinLow := true, weight := 440 },
    { now := 3000, pinLow := true, weight := 440 },
    { now := 4000, pinLow := true, weight := 440 },
    { now := 6000, pinLow := true, weight := 440 } ]

/-- The iteration at 7000 ms, lid closed, that flushes the change pending since 2000 ms. -/
def at7000Closed : Input := { now := 7000, pinLow := true, weight := 440 }

/-- A state with a pending change of -50 g sampled at 4294966296 ms (1000 ms before the
counter wraps), last sampled at 3000 ms after the wrap. -/
def wrapPending : State :=
  { lastWeight := 450, accDelta := -50, lastRead := 3000, lastEventTime := 4294966296,
    lastLidClosed := false, deviceConnected := true }

/-- A state last sampled at 4294966296 ms, 1000 ms before the counter wraps. -/
def wrapSampled : State :=
  { lastWeight := 450, accDelta := 0, lastRead := 4294966296, lastEventTime := 4294966296,
    lastLidClosed := false, deviceConnected := true }

/-- An iteration at 4000 ms with the lid open. -/
def at4000 : Input := { now := 4000, pinLow := false, weight := 450 }

/-- An iteration at 1000 ms with the lid open. -/
def at1000 : Input := { now := 1000, pinLow := false, weight := 455 }

/-- What publishing a message does: the BLE notification only when a client is connected,
the serial line always.  Nothing when there is no message. -/
def publishEffects (connected : Bool) (notify : String → Effect) : Option String → List Effect
  | none => []
  | some text =>
    (if connected then [notify text] else []) ++
      [Effect.serialPrintln (">> " ++ text ++ connSuffix connected)]

/-- The globals after `setup()` with a 1000 g reading, the lid open and `millis()` still 0. -/
def mug1000 : State :=
  { lastWeight := 1000, accDelta := 0, lastRead := 0, lastEventTime := 0,
    lastLidClosed := false, deviceConnected := false }

/-- A slow drain: 100 consecutive samples, 2000 ms apart, each 9 g lighter than the one
before (991 g at 2000 ms down to 100 g at 200000 ms). -/
def slowDrain : List Input :=
  (List.range 100).map fun k =>
    { now := 2000 * (k + 1), pinLow := false, weight := 1000 - 9 * ((k : ℚ) + 1) }

/-- The timestamps of the iterations of a run that emit a weight tag, in order. -/
def eventTimes (s : State) : List Input → List Nat
  | [] => []
  | inp :: rest =>
    (if (loop s inp).2.tag.isSome then [inp.now] else []) ++ eventTimes (loop s inp).1 rest

/-- The effect is a notification on the drink characteristic. -/
def Effect.isDrinkNotify : Effect → Bool
  | Effect.drinkNotify _ => true
  | _ => false

/-- A run from `mug500` with two changes: 60 g lost at 2000 ms, flushed at 8000 ms, and 40 g
gained at 10000 ms, flushed at 16000 ms. -/
def twoEvents : List Input :=
  [ { now := 2000, pinLow := false, weight := 440 },
    { now := 4000, pinLow := false, weight := 440 },
    { now := 8000, pinLow := false, weight := 440 },
    { now := 10000, pinLow := false, weight := 480 },
    { now := 12000, pinLow := false, weight := 480 },
    { now := 16000, pinLow := false, weight := 480 } ]

/-- From `mug500`: a gain of 10.5 g at 2000 ms, a loss of 10.25 g at 4000 ms, then no
change. -/
def quarterGramRun : List Input :=
  [ { now := 2000, pinLow := false, weight := 1021 / 2 },
    { now := 4000, pinLow := false, weight := 2001 / 4 },
    { now := 6000, pinLow := false, weight := 2001 / 4 },
    { now := 8000, pinLow := false, weight := 2001 / 4 } ]

/-- The iteration at 9000 ms, 5000 ms after the last significant sample of
`quarterGramRun`. -/
def at9000 : Input := { now := 9000, pinLow := false, weight := 2001 / 4 }

/-! ## The special values of `float`

The definitions above keep every `float` finite.  The ones below embed the same `loop()` once
more over `FloatX`, which adds the two infinities and NaN of IEEE 754 with their arithmetic and
comparison rules; finite values stay exact.  On finite values the two embeddings agree
(`loopX_toX`). -/

/-- A `float` value: a finite number (kept exact), an infinity, or NaN. -/
inductive FloatX where
  | fin (q : ℚ)
  | posInf
  | negInf
  | nan
deriving DecidableEq, Repr

/-- Unary minus on `float`. -/
def FloatX.neg : FloatX → FloatX
  | FloatX.fin q => FloatX.fin (-q)
  | FloatX.posInf => FloatX.negInf
  | FloatX.negInf => FloatX.posInf
  | FloatX.nan => FloatX.nan

/-- The sum of two `float`s: NaN when an operand is NaN or the operands are infinities of
opposite sign; an infinite operand otherwise wins. -/
def FloatX.add : FloatX → FloatX → FloatX
  | FloatX.fin a, FloatX.fin b => FloatX.fin (a + b)
  | FloatX.nan, _ => FloatX.nan
  | _, FloatX.nan => FloatX.nan
  | FloatX.posInf, FloatX.negInf => FloatX.nan
  | FloatX.negInf, FloatX.posInf => FloatX.nan
  | FloatX.posInf, _ => FloatX.posInf
  | _, FloatX.posInf => FloatX.posInf
  | FloatX.negInf, _ => FloatX.negInf
  | _, FloatX.negInf => FloatX.negInf

/-- The difference `x - y` of two `float`s, which IEEE 754 defines as `x + (-y)`. -/
def FloatX.sub (x y : FloatX) : FloatX := x.add y.neg

/-- The function `fabs`. -/
def FloatX.fabs : FloatX → FloatX
  | FloatX.fin q => FloatX.fin |q|
  | FloatX.posInf => FloatX.posInf
  | FloatX.negInf => FloatX.posInf
  | FloatX.nan => FloatX.nan

/-- The comparison `x < y` of two `float`s: false as soon as an operand is NaN. -/
def FloatX.lt : FloatX → FloatX → Bool
  | FloatX.fin a, FloatX.fin b => decide (a < b)
  | FloatX.nan, _ => false
  | _, FloatX.nan => false
  | FloatX.negInf, FloatX.negInf => false
  | FloatX.negInf, _ => true
  | FloatX.posInf, _ => false
  | FloatX.fin _, FloatX.posInf => true
  | FloatX.fin _, FloatX.negInf => false

/-- The comparison `x != y` of two `float`s: true as soon as an operand is NaN. -/
def FloatX.ne : FloatX → FloatX → Bool
  | FloatX.fin a, FloatX.fin b => decide (a ≠ b)
  | FloatX.nan, _ => true
  | _, FloatX.nan => true
  | FloatX.posInf, FloatX.posInf => false
  | FloatX.negInf, FloatX.negInf => false
  | _, _ => true

/-- The conversion `(int)x` of a `float` with special values.  C++ leaves the conversion of an
infinity or NaN undefined: `undef` stands for whatever the hardware returns there. -/
def castIntX (undef : Int) : FloatX → Int
  | FloatX.fin q => castInt q
  | _ => undef

/-- The globals of the sketch, with `float`s that may be infinite or NaN. -/
structure StateX where
  lastWeight : FloatX
  accDelta : FloatX
  lastRead : Nat
  lastEventTime : Nat
  lastLidClosed : Bool
  deviceConnected : Bool
deriving DecidableEq, Repr

/-- What one iteration of `loop()` reads, with a scale reading that may be infinite or NaN. -/
structure InputX where
  now : Nat
  pinLow : Bool
  weight : FloatX
deriving DecidableEq, Repr

/-- Lines 110-121 over `StateX`: lid polling. -/
def lidBlockX (s : StateX) (lidClosed : Bool) : StateX × Emit :=
  if lidClosed ≠ s.lastLidClosed then
    let msg := if lidClosed then "LID_CLOSED" else "LID_OPEN"
    ({ s with lastLidClosed := lidClosed },
     { text := some msg,
       effects := (if s.deviceConnected then [Effect.lidNotify msg] else []) ++
         [Effect.serialPrintln (">> " ++ msg ++ connSuffix s.deviceConnected)] })
  else (s, { text := none, effects := [] })

/-- Lines 124-133 over `StateX`: weight sampling. -/
def sampleBlockX (s : StateX) (now : Nat) (w : FloatX) : StateX :=
  if subUL now s.lastRead ≥ MEASURE_MS then
    let d := w.sub s.lastWeight
    if FloatX.lt (FloatX.fin NOISE_G) d.fabs = true then
      { s with lastRead := now, accDelta := s.accDelta.add d, lastEventTime := now,
               lastWeight := w }
    else
      { s with lastRead := now, lastWeight := w }
  else s

/-- Lines 139-153 over `FloatX`: the tag built by the four-way branch; the empty string when
no branch is taken. -/
def flushTagX (undef : Int) (ml : FloatX) (lastLidClosed : Bool) (ts : String) : String :=
  if ml.lt (FloatX.fin 0) = true ∧ lastLidClosed = false then
    "DRINKING_" ++ toString (castIntX undef ml.neg) ++ "_ml@" ++ ts
  else if FloatX.lt (FloatX.fin 0) ml = true ∧ lastLidClosed = false then
    "ADDING_" ++ toString (castIntX undef ml) ++ "_ml@" ++ ts
  else if ml.lt (FloatX.fin 0) = true ∧ lastLidClosed = true then
    "THROWING_" ++ toString (castIntX undef ml.neg) ++ "_ml@" ++ ts
  else if FloatX.lt (FloatX.fin 0) ml = true ∧ lastLidClosed = true then
    "ADDING_" ++ toString (castIntX undef ml) ++ "_ml@" ++ ts
  else ""

/-- The conditions of the four branches of lines 142-153, in order. -/
def branchConditionsX (ml : FloatX) (lastLidClosed : Bool) : List Bool :=
  [ decide (ml.lt (FloatX.fin 0) = true ∧ lastLidClosed = false),
    decide (FloatX.lt (FloatX.fin 0) ml = true ∧ lastLidClosed = false),
    decide (ml.lt (FloatX.fin 0) = true ∧ lastLidClosed = true),
    decide (FloatX.lt (FloatX.fin 0) ml = true ∧ lastLidClosed = true) ]

/-- The guard of line 136 over `StateX`: `accDelta != 0.0f && (now - lastEventTime) >=
STABLE_MS`. -/
def flushGuardX (s : StateX) (now : Nat) : Prop :=
  s.accDelta.ne (FloatX.fin 0) = true ∧ subUL now s.lastEventTime ≥ STABLE_MS

instance (s : StateX) (now : Nat) : Decidable (flushGuardX s now) := by
  unfold flushGuardX; infer_instance

/-- Lines 136-164 over `StateX`: flush of the accumulated change. -/
def flushBlockX (undef : Int) (s : StateX) (now : Nat) : StateX × Bool × Emit :=
  if flushGuardX s now then
    let ml := s.accDelta
    let tag := flushTagX undef ml s.lastLidClosed (toString now)
    ({ s with accDelta := FloatX.fin 0, lastEventTime := now }, true,
     if tag.length ≠ 0 then
       { text := some tag,
         effects := (if s.deviceConnected then [Effect.drinkNotify tag] else []) ++
           [Effect.serialPrintln (">> " ++ tag ++ connSuffix s.deviceConnected)] }
     else { text := none, effects := [] })
  else (s, false, { text := none, effects := [] })

/-- The state in which the flush guard of an iteration is evaluated, over `StateX`. -/
def beforeFlushX (s : StateX) (inp : InputX) : StateX :=
  sampleBlockX (lidBlockX s inp.pinLow).1 inp.now inp.weight

/-- One iteration of `loop()` over `StateX`. -/
def loopX (undef : Int) (s : StateX) (inp : InputX) : StateX × Output :=
  let l := lidBlockX s inp.pinLow
  let s2 := sampleBlockX l.1 inp.now inp.weight
  let f := flushBlockX undef s2 inp.now
  (f.1, { lidMsg := l.2.text, flushed := f.2.1, tag := f.2.2.text,
          effects := l.2.effects ++ f.2.2.effects })

/-- The state after a sequence of iterations, over `StateX`. -/
def runX (undef : Int) (s : StateX) : List InputX → StateX
  | [] => s
  | inp :: rest => runX undef (loopX undef s inp).1 rest

/-- A state of finite `float`s as a `StateX`. -/
def State.toX (s : State) : StateX :=
  { lastWeight := FloatX.fin s.lastWeight, accDelta := FloatX.fin s.accDelta,
    lastRead := s.lastRead, lastEventTime := s.lastEventTime,
    lastLidClosed := s.lastLidClosed, deviceConnected := s.deviceConnected }

/-- An input with a finite scale reading as an `InputX`. -/
def Input.toX (inp : Input) : InputX :=
  { now := inp.now, pinLow := inp.pinLow, weight := FloatX.fin inp.weight }

/-- From `mug500`: the scale returns `+inf` once at 2000 ms and 500 g from 4000 ms on. -/
def infiniteReadingRun : List InputX :=
  [ { now := 2000, pinLow := false, weight := FloatX.posInf },
    { now := 4000, pinLow := false, weight := FloatX.fin 500 },
    { now := 6000, pinLow := false, weight := FloatX.fin 500 },
    { now := 8000, pinLow := false, weight := FloatX.fin 500 } ]

/-- The iteration at 9000 ms, 5000 ms after the last significant sample of
`infiniteReadingRun`. -/
def at9000X : InputX := { now := 9000, pinLow := false, weight := FloatX.fin 500 }

/-! ## Basic facts about the blocks -/

theorem subUL_of_le {a b : Nat} (h : b ≤ a) (ha : a < ULONG_MOD) : subUL a b = a - b := by
  simp only [subUL, ULONG_MOD] at *
  omega

theorem castInt_of_nonneg {x : ℚ} (h : 0 ≤ x) : castInt x = ⌊x⌋ := by
  rw [Rat.floor_def, castInt]
  exact Int.tdiv_eq_ediv (Rat.num_nonneg.mpr h) (Int.ofNat_nonneg _)

theorem castInt_intCast (n : Int) : castInt (n : ℚ) = n := by
  simp [castInt]

theorem lidBlock_lastLidClosed (s : State) (r : Bool) : (lidBlock s r).1.lastLidClosed = r := by
  unfold lidBlock
  split
  · rfl
  · rename_i h
    simp only [ne_eq, not_not] at h
    exact h.symm

theorem sampleBlock_lastLidClosed (s : State) (now : Nat) (w : ℚ) :
    (sampleBlock s now w).lastLidClosed = s.lastLidClosed := by
  unfold sampleBlock
  split
  · dsimp only
    split <;> rfl
  · rfl

theorem beforeFlush_lastLidClosed (s : State) (inp : Input) :
    (beforeFlush s inp).lastLidClosed = inp.pinLow := by
  unfold beforeFlush
  rw [sampleBlock_lastLidClosed, lidBlock_lastLidClosed]

theorem flushTag_length_ne_zero {ml : ℚ} (h : ml ≠ 0) (lid : Bool) (ts : String) :
    (flushTag ml lid ts).length ≠ 0 := by
  have h9 : "DRINKING_".length = 9 := by decide
  have h7 : "ADDING_".length = 7 := by decide
  have h8 : "THROWING_".length = 9 := by decide
  rcases lt_or_gt_of_ne h with hneg | hpos
  · have hn : ¬ ml > 0 := not_lt.mpr hneg.le
    cases lid <;> simp [flushTag, hneg, hn, String.length_append, h9, h8]
  · have hn : ¬ ml < 0 := not_lt.mpr hpos.le
    cases lid <;> simp [flushTag, hpos, hn, String.length_append, h7]

theorem loop_flushed_iff (s : State) (inp : Input) :
    (loop s inp).2.flushed = true ↔ flushGuard (beforeFlush s inp) inp.now := by
  unfold loop beforeFlush flushBlock
  dsimp only
  split <;> simp_all

theorem loop_tag_of_guard {s : State} {inp : Input}
    (h : flushGuard (beforeFlush s inp) inp.now) :
    (loop s inp).2.tag =
      some (flushTag (beforeFlush s inp).accDelta (beforeFlush s inp).lastLidClosed
        (toString inp.now)) := by
  have hlen := flushTag_length_ne_zero h.1 (beforeFlush s inp).lastLidClosed (toString inp.now)
  unfold beforeFlush at h hlen
  simp only [loop, flushBlock, if_pos h, beforeFlush]
  rw [if_pos hlen]

theorem loop_tag_of_not_guard {s : State} {inp : Input}
    (h : ¬ flushGuard (beforeFlush s inp) inp.now) : (loop s inp).2.tag = none := by
  unfold beforeFlush at h
  simp only [loop, flushBlock, if_neg h]

theorem loop_state_of_guard {s : State} {inp : Input}
    (h : flushGuard (beforeFlush s inp) inp.now) :
    (loop s inp).1 = { beforeFlush s inp with accDelta := 0, lastEventTime := inp.now } := by
  unfold beforeFlush at h
  simp only [loop, flushBlock, if_pos h, beforeFlush]

theorem loop_state_of_not_guard {s : State} {inp : Input}
    (h : ¬ flushGuard (beforeFlush s inp) inp.now) : (loop s inp).1 = beforeFlush s inp := by
  unfold beforeFlush at h
  simp only [loop, flushBlock, if_neg h, beforeFlush]

/-! ## The claims -/

/-- C1, as the code has it: for every flush of `loop()` the tag starts with `DRINKING` when the
accumulated change is negative and the lid is open, with `THROWING` when it is negative and the
lid is closed, and with `ADDING` when it is positive, whatever the lid; the number printed is
`|accDelta|` truncated toward zero (the integer `n` with `n ≤ |accDelta| < n + 1`), which is
`|accDelta|` itself when `accDelta` is a whole number.  The four literal cases of the table
follow: (-50, open) prints `DRINKING_50`, (+30, open) `ADDING_30`, (-20, closed) `THROWING_20`
and (+15, closed) `ADDING_15`. -/
theorem C1_classification (s : State) (inp : Input)
    (h : flushGuard (beforeFlush s inp) inp.now) :
    ((beforeFlush s inp).accDelta < 0 → (beforeFlush s inp).lastLidClosed = false →
      (loop s inp).2.tag = some ("DRINKING_" ++
        toString (castInt |(beforeFlush s inp).accDelta|) ++ "_ml@" ++ toString inp.now)) ∧
    ((beforeFlush s inp).accDelta < 0 → (beforeFlush s inp).lastLidClosed = true →
      (loop s inp).2.tag = some ("THROWING_" ++
        toString (castInt |(beforeFlush s inp).accDelta|) ++ "_ml@" ++ toString inp.now)) ∧
    ((beforeFlush s inp).accDelta > 0 →
      (loop s inp).2.tag = some ("ADDING_" ++
        toString (castInt |(beforeFlush s inp).accDelta|) ++ "_ml@" ++ toString inp.now)) ∧
    ((castInt |(beforeFlush s inp).accDelta| : ℚ) ≤ |(beforeFlush s inp).accDelta| ∧
      |(beforeFlush s inp).accDelta| < (castInt |(beforeFlush s inp).accDelta| : ℚ) + 1) ∧
    (∀ n : ℤ, (beforeFlush s inp).accDelta = n →
      (castInt |(beforeFlush s inp).accDelta| : ℚ) = |(beforeFlush s inp).accDelta|) ∧
    ((beforeFlush s inp).accDelta = -50 → (beforeFlush s inp).lastLidClosed = false →
      (loop s inp).2.tag = some ("DRINKING_50_ml@" ++ toString inp.now)) ∧
    ((beforeFlush s inp).accDelta = 30 → (beforeFlush s inp).lastLidClosed = false →
      (loop s inp).2.tag = some ("ADDING_30_ml@" ++ toString inp.now)) ∧
    ((beforeFlush s inp).accDelta = -20 → (beforeFlush s inp).lastLidClosed = true →
      (loop s inp).2.tag = some ("THROWING_20_ml@" ++ toString inp.now)) ∧
    ((beforeFlush s inp).accDelta = 15 → (beforeFlush s inp).lastLidClosed = true →
      (loop s inp).2.tag = some ("ADDING_15_ml@" ++ toString inp.now)) := by
  have htag := loop_tag_of_guard h
  have hfloor := castInt_of_nonneg (abs_nonneg (beforeFlush s inp).accDelta)
  refine ⟨?_, ?_, ?_, ?_, ?_, ?_, ?_, ?_, ?_⟩
  · intro hneg hlid
    rw [htag, hlid, abs_of_neg hneg]
    simp [flushTag, hneg]
  · intro hneg hlid
    have hn : ¬ (beforeFlush s inp).accDelta > 0 := not_lt.mpr hneg.le
    rw [htag, hlid, abs_of_neg hneg]
    simp [flushTag, hneg, hn]
  · intro hpos
    have hn : ¬ (beforeFlush s inp).accDelta < 0 := not_lt.mpr hpos.le
    rw [htag, abs_of_pos hpos]
    cases (beforeFlush s inp).lastLidClosed <;> simp [flushTag, hpos, hn]
  · rw [hfloor]
    exact ⟨Int.floor_le _, Int.lt_floor_add_one _⟩
  · intro n hn
    rw [hn, ← Int.cast_abs, castInt_intCast]
  · intro hacc hlid
    rw [htag, hlid, hacc, flushTag, if_pos (by norm_num)]
    exact congrArg (fun p => some (p ++ toString inp.now)) (by decide!)
  · intro hacc hlid
    rw [htag, hlid, hacc, flushTag, if_neg (by norm_num), if_pos (by norm_num)]
    exact congrArg (fun p => some (p ++ toString inp.now)) (by decide!)
  · intro hacc hlid
    rw [htag, hlid, hacc, flushTag, if_neg (by norm_num), if_neg (by norm_num),
      if_pos (by norm_num)]
    exact congrArg (fun p => some (p ++ toString inp.now)) (by decide!)
  · intro hacc hlid
    rw [htag, hlid, hacc, flushTag, if_neg (by norm_num), if_neg (by norm_num),
      if_neg (by norm_num), if_pos (by norm_num)]
    exact congrArg (fun p => some (p ++ toString inp.now)) (by decide!)

/-- Witness of C1: the pending change of -50 g with the lid open is flushed at 7000 ms as
`DRINKING_50_ml@7000`. -/
theorem C1_classification_witness :
    flushGuard (beforeFlush pendingFifty at7000) at7000.now ∧
    (loop pendingFifty at7000).2.tag = some ("DRINKING_50_ml@" ++ toString at7000.now) :=
  ⟨by decide!,
   (C1_classification pendingFifty at7000 (by decide!)).2.2.2.2.2.1 (by decide!) (by decide!)⟩

/-- C1 as stated fails: a pending change of -50.5 g with the lid open is flushed with the
number 50 in the tag, while `|accDelta|` is 50.5. -/
theorem C1_magnitude_counterexample :
    flushGuard (beforeFlush pendingHalf at7000) at7000.now ∧
    (loop pendingHalf at7000).2.tag = some "DRINKING_50_ml@7000" ∧
    |(beforeFlush pendingHalf at7000).accDelta| = 101 / 2 ∧
    (50 : ℚ) ≠ |(beforeFlush pendingHalf at7000).accDelta| := by
  decide!

theorem beforeFlush_lastEventTime (s : State) (inp : Input) :
    (beforeFlush s inp).lastEventTime = s.lastEventTime ∨
    (beforeFlush s inp).lastEventTime = inp.now := by
  have hl : (lidBlock s inp.pinLow).1.lastEventTime = s.lastEventTime := by
    unfold lidBlock
    split <;> rfl
  unfold beforeFlush sampleBlock
  split
  · dsimp only
    split
    · exact Or.inr rfl
    · exact Or.inl hl
  · exact Or.inl hl

/-- C3: a reading whose difference from `lastWeight` is at most 10.0 in absolute value (10.0
included) leaves `accDelta` and `lastEventTime` unchanged in the sampling step, whether or not
the sampling gate passes. -/
theorem C3_noise_rejection (s : State) (now : Nat) (w : ℚ)
    (h : |w - s.lastWeight| ≤ NOISE_G) :
    (sampleBlock s now w).accDelta = s.accDelta ∧
    (sampleBlock s now w).lastEventTime = s.lastEventTime := by
  have hn : ¬ |w - s.lastWeight| > NOISE_G := not_lt.mpr h
  unfold sampleBlock
  split
  · dsimp only
    rw [if_neg hn]
    exact ⟨rfl, rfl⟩
  · exact ⟨rfl, rfl⟩

/-- Witness of C3: a reading of 510 g against 500 g (a difference of exactly 10.0) taken at
2000 ms, where the sampling gate passes. -/
theorem C3_noise_rejection_witness :
    |(510 : ℚ) - mug500.lastWeight| ≤ NOISE_G ∧ subUL 2000 mug500.lastRead ≥ MEASURE_MS ∧
    (sampleBlock mug500 2000 510).accDelta = mug500.accDelta ∧
    (sampleBlock mug500 2000 510).lastEventTime = mug500.lastEventTime :=
  ⟨by decide!, by decide, C3_noise_rejection mug500 2000 510 (by decide!)⟩

theorem lidBlock_weight_fields (s : State) (r : Bool) :
    (lidBlock s r).1.lastWeight = s.lastWeight ∧ (lidBlock s r).1.accDelta = s.accDelta ∧
    (lidBlock s r).1.lastRead = s.lastRead ∧
    (lidBlock s r).1.lastEventTime = s.lastEventTime ∧
    (lidBlock s r).1.deviceConnected = s.deviceConnected := by
  unfold lidBlock
  split <;> exact ⟨rfl, rfl, rfl, rfl, rfl⟩

theorem beforeFlush_of_gate {s : State} {inp : Input}
    (h : subUL inp.now s.lastRead ≥ MEASURE_MS) :
    (beforeFlush s inp).lastWeight = inp.weight ∧ (beforeFlush s inp).lastRead = inp.now ∧
    (beforeFlush s inp).accDelta =
      s.accDelta + (if |inp.weight - s.lastWeight| > NOISE_G then inp.weight - s.lastWeight
        else 0) := by
  obtain ⟨hw, ha, hr, -, -⟩ := lidBlock_weight_fields s inp.pinLow
  unfold beforeFlush sampleBlock
  rw [hr, if_pos h, hw, ha]
  dsimp only
  split
  · exact ⟨rfl, rfl, rfl⟩
  · exact ⟨rfl, rfl, by simp [ha]⟩

theorem beforeFlush_of_not_gate {s : State} {inp : Input}
    (h : ¬ subUL inp.now s.lastRead ≥ MEASURE_MS) :
    (beforeFlush s inp).lastWeight = s.lastWeight ∧ (beforeFlush s inp).lastRead = s.lastRead ∧
    (beforeFlush s inp).accDelta = s.accDelta ∧
    (beforeFlush s inp).lastEventTime = s.lastEventTime := by
  obtain ⟨hw, ha, hr, he, -⟩ := lidBlock_weight_fields s inp.pinLow
  unfold beforeFlush sampleBlock
  rw [hr, if_neg h]
  exact ⟨hw, hr, ha, he⟩

theorem run_accDelta_of_no_flush (s : State) (inps : List Input)
    (hno : ∀ o ∈ outputs s inps, o.flushed = false) :
    (run s inps).accDelta = s.accDelta + (acceptedDeltas s.lastWeight s.lastRead inps).sum := by
  induction inps generalizing s with
  | nil => simp [run, acceptedDeltas]
  | cons inp rest ih =>
    have hhead : (loop s inp).2.flushed = false := hno _ (by simp [outputs])
    have hng : ¬ flushGuard (beforeFlush s inp) inp.now := by
      rw [← loop_flushed_iff, hhead]
      exact Bool.false_ne_true
    have hst := loop_state_of_not_guard hng
    have htail : ∀ o ∈ outputs (loop s inp).1 rest, o.flushed = false :=
      fun o ho => hno o (by simp [outputs, ho])
    rw [run, ih _ htail, hst, acceptedDeltas]
    by_cases hg : subUL inp.now s.lastRead ≥ MEASURE_MS
    · obtain ⟨hw, hr, ha⟩ := beforeFlush_of_gate hg
      rw [hw, hr, ha, if_pos hg]
      split <;> simp [add_assoc]
    · obtain ⟨hw, hr, ha, -⟩ := beforeFlush_of_not_gate hg
      rw [hw, hr, ha, if_neg hg]

/-- C4: starting from `accDelta = 0`, after any run of `loop()` in which no flush occurs,
`accDelta` is the exact sum of the deltas `w - lastWeight` of the gate-passing samples whose
absolute value exceeds 10.0; blocked iterations and noise samples contribute nothing, however
they are interleaved. -/
theorem C4_accumulation (s : State) (inps : List Input) (h0 : s.accDelta = 0)
    (hno : ∀ o ∈ outputs s inps, o.flushed = false) :
    (run s inps).accDelta = (acceptedDeltas s.lastWeight s.lastRead inps).sum := by
  rw [run_accDelta_of_no_flush s inps hno, h0, zero_add]

/-- Witness of C4: in `interleavedRun` the accepted deltas are -20 and -25, no flush occurs,
and `accDelta` ends at -45. -/
theorem C4_accumulation_witness :
    mug500.accDelta = 0 ∧ (∀ o ∈ outputs mug500 interleavedRun, o.flushed = false) ∧
    acceptedDeltas mug500.lastWeight mug500.lastRead interleavedRun = [-20, -25] ∧
    (run mug500 interleavedRun).accDelta = -45 :=
  ⟨by decide!, by decide!, by decide!,
   (C4_accumulation mug500 interleavedRun (by decide!) (by decide!)).trans (by decide!)⟩

theorem quiet_no_event (s : State) (inps : List Input) (h0 : s.accDelta = 0)
    (hq : quiet s.lastWeight s.lastRead inps) :
    ∀ o ∈ outputs s inps, o.tag = none ∧ o.flushed = false := by
  induction inps generalizing s with
  | nil => simp [outputs]
  | cons inp rest ih =>
    have hacc : (beforeFlush s inp).accDelta = 0 ∧
        quiet (beforeFlush s inp).lastWeight (beforeFlush s inp).lastRead rest := by
      unfold quiet at hq
      by_cases hg : subUL inp.now s.lastRead ≥ MEASURE_MS
      · obtain ⟨hw, hr, ha⟩ := beforeFlush_of_gate hg
        rw [if_pos hg] at hq
        rw [hw, hr, ha, if_neg (not_lt.mpr hq.1), h0]
        exact ⟨add_zero 0, hq.2⟩
      · obtain ⟨hw, hr, ha, -⟩ := beforeFlush_of_not_gate hg
        rw [if_neg hg] at hq
        rw [hw, hr, ha]
        exact ⟨h0, hq⟩
    have hng : ¬ flushGuard (beforeFlush s inp) inp.now := fun hg => hg.1 hacc.1
    have hst := loop_state_of_not_guard hng
    intro o ho
    simp only [outputs, List.mem_cons] at ho
    rcases ho with rfl | ho
    · refine ⟨loop_tag_of_not_guard hng, ?_⟩
      rw [← Bool.not_eq_true, loop_flushed_iff]
      exact hng
    · rw [hst] at ho
      exact ih _ hacc.1 hacc.2 o ho

/-- C5: immediately after every flush `accDelta` is 0 and `lastEventTime` is `now`; and in
every following run of `loop()` without a significant sample (each iteration blocked by the
sampling gate or with `|d| ≤ 10.0`) no weight event is emitted, however much time passes. -/
theorem C5_post_flush_reset (s : State) (inp : Input)
    (hf : (loop s inp).2.flushed = true) :
    (loop s inp).1.accDelta = 0 ∧ (loop s inp).1.lastEventTime = inp.now ∧
    ∀ rest : List Input, quiet (loop s inp).1.lastWeight (loop s inp).1.lastRead rest →
      ∀ o ∈ outputs (loop s inp).1 rest, o.tag = none ∧ o.flushed = false := by
  have hg := (loop_flushed_iff s inp).mp hf
  have hst := loop_state_of_guard hg
  have h0 : (loop s inp).1.accDelta = 0 := by rw [hst]
  refine ⟨h0, by rw [hst], ?_⟩
  intro rest hq
  exact quiet_no_event _ rest h0 hq

/-- Witness of C5: `pendingFifty` is flushed at 7000 ms; `quietRun` afterwards emits
nothing. -/
theorem C5_post_flush_reset_witness :
    (loop pendingFifty at7000).2.flushed = true ∧
    (loop pendingFifty at7000).1.accDelta = 0 ∧
    (loop pendingFifty at7000).1.lastEventTime = 7000 ∧
    quiet (loop pendingFifty at7000).1.lastWeight (loop pendingFifty at7000).1.lastRead
      quietRun ∧
    ∀ o ∈ outputs (loop pendingFifty at7000).1 quietRun, o.tag = none ∧ o.flushed = false :=
  ⟨by decide!, (C5_post_flush_reset pendingFifty at7000 (by decide!)).1,
   (C5_post_flush_reset pendingFifty at7000 (by decide!)).2.1, by decide!,
   (C5_post_flush_reset pendingFifty at7000 (by decide!)).2.2 quietRun (by decide!)⟩

theorem loop_lastLidClosed (s : State) (inp : Input) :
    (loop s inp).1.lastLidClosed = inp.pinLow := by
  have h := beforeFlush_lastLidClosed s inp
  by_cases hg : flushGuard (beforeFlush s inp) inp.now
  · rw [loop_state_of_guard hg]
    exact h
  · rw [loop_state_of_not_guard hg]
    exact h

theorem loop_lidMsg (s : State) (inp : Input) :
    (loop s inp).2.lidMsg =
      if inp.pinLow ≠ s.lastLidClosed then
        some (if inp.pinLow then "LID_CLOSED" else "LID_OPEN")
      else none := by
  unfold loop lidBlock
  dsimp only
  split <;> rfl

theorem same_reading_no_lidMsg (s : State) (r : Bool) (inps : List Input)
    (hs : s.lastLidClosed = r) (hr : ∀ i ∈ inps, i.pinLow = r) :
    ∀ o ∈ outputs s inps, o.lidMsg = none := by
  induction inps generalizing s with
  | nil => simp [outputs]
  | cons inp rest ih =>
    have hp : inp.pinLow = r := hr inp (List.mem_cons_self _ _)
    intro o ho
    simp only [outputs, List.mem_cons] at ho
    rcases ho with rfl | ho
    · rw [loop_lidMsg, if_neg]
      rw [hp, hs]
      exact fun h => h rfl
    · refine ih (loop s inp).1 ?_ (fun i hi => hr i (List.mem_cons_of_mem _ hi)) o ho
      rw [loop_lastLidClosed, hp]

/-- C6: the lid step of `loop()` produces a lid message if and only if the reading differs
from `lastLidClosed`; then `lastLidClosed` becomes the reading and the message is exactly
`LID_CLOSED` for a closed reading and `LID_OPEN` otherwise.  Repeating the same reading any
number of times afterwards emits nothing, so one transition emits exactly one message of the
matching kind; and the state made by `setup()` already holds the first reading. -/
theorem C6_lid_monitoring (s : State) (inp : Input) :
    ((loop s inp).2.lidMsg.isSome = true ↔ inp.pinLow ≠ s.lastLidClosed) ∧
    (lidBlock s inp.pinLow).2.text = (loop s inp).2.lidMsg ∧
    (inp.pinLow ≠ s.lastLidClosed →
      (lidBlock s inp.pinLow).1.lastLidClosed = inp.pinLow ∧
      (loop s inp).1.lastLidClosed = inp.pinLow ∧
      (loop s inp).2.lidMsg = some (if inp.pinLow then "LID_CLOSED" else "LID_OPEN")) ∧
    (∀ rest : List Input, (∀ i ∈ rest, i.pinLow = inp.pinLow) →
      ∀ o ∈ outputs (loop s inp).1 rest, o.lidMsg = none) ∧
    (inp.pinLow ≠ s.lastLidClosed →
      ∀ rest : List Input, (∀ i ∈ rest, i.pinLow = inp.pinLow) →
        (outputs s (inp :: rest)).filterMap (fun o => o.lidMsg) =
          [if inp.pinLow then "LID_CLOSED" else "LID_OPEN"]) ∧
    (∀ (w : ℚ) (t1 t2 : Nat) (s0 : State), setup true w inp.pinLow t1 t2 = some s0 →
      (loop s0 inp).2.lidMsg = none) := by
  have hmsg := loop_lidMsg s inp
  have hrep : ∀ rest : List Input, (∀ i ∈ rest, i.pinLow = inp.pinLow) →
      ∀ o ∈ outputs (loop s inp).1 rest, o.lidMsg = none :=
    fun rest hr => same_reading_no_lidMsg _ inp.pinLow rest (loop_lastLidClosed s inp) hr
  refine ⟨?_, rfl, ?_, hrep, ?_, ?_⟩
  · rw [hmsg]
    split <;> simp_all
  · intro hne
    refine ⟨lidBlock_lastLidClosed s inp.pinLow, loop_lastLidClosed s inp, ?_⟩
    rw [hmsg, if_pos hne]
  · intro hne rest hr
    have hnone : (outputs (loop s inp).1 rest).filterMap (fun o => o.lidMsg) = [] := by
      rw [List.filterMap_eq_nil_iff]
      exact hrep rest hr
    rw [outputs, List.filterMap_cons, hmsg, if_pos hne, hnone]
  · intro w t1 t2 s0 hs0
    simp only [setup, if_true, Option.some.injEq] at hs0
    rw [loop_lidMsg, if_neg]
    rw [← hs0]
    exact fun h => h rfl

/-- Witness of C6: from `mug500` (lid open) a closed reading emits `LID_CLOSED` once, and
three more closed readings emit nothing. -/
theorem C6_lid_monitoring_witness :
    lidClosing.pinLow ≠ mug500.lastLidClosed ∧
    (∀ i ∈ lidStaysClosed, i.pinLow = lidClosing.pinLow) ∧
    (outputs mug500 (lidClosing :: lidStaysClosed)).filterMap (fun o => o.lidMsg) =
      ["LID_CLOSED"] :=
  ⟨by decide, by decide,
   (C6_lid_monitoring mug500 lidClosing).2.2.2.2.1 (by decide) lidStaysClosed (by decide)⟩

theorem loop_congr_unread {s : State} {i1 i2 : Input} (hnow : i1.now = i2.now)
    (hpin : i1.pinLow = i2.pinLow)
    (hw : subUL i2.now s.lastRead ≥ MEASURE_MS → i1.weight = i2.weight) :
    loop s i1 = loop s i2 := by
  have hsample : sampleBlock (lidBlock s i1.pinLow).1 i1.now i1.weight =
      sampleBlock (lidBlock s i2.pinLow).1 i2.now i2.weight := by
    rw [hnow, hpin]
    by_cases hg : subUL i2.now s.lastRead ≥ MEASURE_MS
    · rw [hw hg]
    · have hr := (lidBlock_weight_fields s i2.pinLow).2.2.1
      unfold sampleBlock
      rw [hr, if_neg hg, if_neg hg]
  unfold loop
  dsimp only
  rw [hsample, hnow, hpin]

theorem run_append_singleton (s : State) (l : List Input) (x : Input) :
    run s (l ++ [x]) = (loop (run s l) x).1 := by
  induction l generalizing s with
  | nil => rfl
  | cons inp rest ih => exact ih (loop s inp).1

theorem trace_append_singleton (s : State) (l : List Input) (x : Input) :
    trace s (l ++ [x]) = trace s l ++ [loop (run s l) x] := by
  induction l generalizing s with
  | nil => rfl
  | cons inp rest ih =>
    show loop s inp :: trace (loop s inp).1 (rest ++ [x]) = _
    rw [ih (loop s inp).1]
    rfl

theorem trace_congr_unread (s : State) (f g : Nat → Input) (n : Nat)
    (h : ∀ k < n, (f k).now = (g k).now ∧ (f k).pinLow = (g k).pinLow ∧
      (subUL (g k).now (run s ((List.range k).map g)).lastRead ≥ MEASURE_MS →
        (f k).weight = (g k).weight)) :
    trace s ((List.range n).map f) = trace s ((List.range n).map g) ∧
    run s ((List.range n).map f) = run s ((List.range n).map g) := by
  induction n with
  | zero => exact ⟨rfl, rfl⟩
  | succ n ih =>
    obtain ⟨ht, hr⟩ := ih (fun k hk => h k (Nat.lt_succ_of_lt hk))
    obtain ⟨hnow, hpin, hw⟩ := h n (Nat.lt_succ_self n)
    have hstep : loop (run s ((List.range n).map f)) (f n) =
        loop (run s ((List.range n).map g)) (g n) := by
      rw [hr]
      exact loop_congr_unread hnow hpin hw
    rw [List.range_succ, List.map_append, List.map_append, List.map_singleton,
      List.map_singleton, trace_append_singleton, trace_append_singleton,
      run_append_singleton, run_append_singleton, ht, hstep]
    exact ⟨rfl, rfl⟩

theorem scenario_reads_scale_thrice :
    ∀ k < 141, subUL (50 * k)
        (run mug500 ((List.range k).map fun j =>
          ({ now := 50 * j, pinLow := false, weight := scenarioScale j } : Input))).lastRead
          ≥ MEASURE_MS →
      k = 40 ∨ k = 80 ∨ k = 120 := by
  decide!

theorem scenario_trace :
    (trace mug500 (scenario scenarioScale)).map (fun p => (p.1.accDelta, p.2.tag)) =
      List.replicate 40 (0, none) ++ List.replicate 100 (-60, none) ++
        [(0, some "DRINKING_60_ml@7000")] := by
  decide!

/-- C7: from the state `setup()` makes at time 0 with a 500 g reading and the lid open,
running `loop()` at 0, 50, ..., 7000 ms with the lid open and the scale returning 440, 441
and 440 at the samples of 2000, 4000 and 6000 ms (whatever it would return when it is not
read): `accDelta` is 0 before the sample at 2000 ms, -60 from then until the iteration at
7000 ms, and 0 after it; no tag is emitted before 7000 ms; the iteration at 7000 ms emits
`DRINKING_60_ml@7000`. -/
theorem C7_end_to_end (scale : Nat → ℚ) (h1 : scale 40 = 440) (h2 : scale 80 = 441)
    (h3 : scale 120 = 440) :
    setup true 500 false 0 0 = some mug500 ∧
    (scenario scale).map (fun i => (i.now, i.pinLow)) =
      (List.range 141).map (fun k => (50 * k, false)) ∧
    (trace mug500 (scenario scale)).map (fun p => (p.1.accDelta, p.2.tag)) =
      List.replicate 40 (0, none) ++ List.replicate 100 (-60, none) ++
        [(0, some "DRINKING_60_ml@7000")] := by
  have hcongr := trace_congr_unread mug500
    (fun k => ({ now := 50 * k, pinLow := false, weight := scale k } : Input))
    (fun k => ({ now := 50 * k, pinLow := false, weight := scenarioScale k } : Input)) 141
    (by
      intro k hk
      refine ⟨rfl, rfl, fun hg => ?_⟩
      rcases scenario_reads_scale_thrice k hk hg with rfl | rfl | rfl
      · exact h1.trans (by decide!)
      · exact h2.trans (by decide!)
      · exact h3.trans (by decide!))
  refine ⟨rfl, ?_, ?_⟩
  · simp [scenario, Function.comp_def]
  · have htr : trace mug500 (scenario scale) = trace mug500 (scenario scenarioScale) :=
      hcongr.1
    rw [htr]
    exact scenario_trace

/-- Witness of C7: the scenario with the scale `scenarioScale`. -/
theorem C7_end_to_end_witness :
    scenarioScale 40 = 440 ∧ scenarioScale 80 = 441 ∧ scenarioScale 120 = 440 ∧
    (trace mug500 (scenario scenarioScale)).map (fun p => (p.1.accDelta, p.2.tag)) =
      List.replicate 40 (0, none) ++ List.replicate 100 (-60, none) ++
        [(0, some "DRINKING_60_ml@7000")] :=
  ⟨by decide!, by decide!, by decide!,
   (C7_end_to_end scenarioScale (by decide!) (by decide!) (by decide!)).2.2⟩

theorem flushTag_eq_kindName {ml : ℚ} (h : ml ≠ 0) (lid : Bool) (ts : String) :
    flushTag ml lid ts =
      kindName ml lid ++ "_" ++ toString (castInt |ml|) ++ "_ml@" ++ ts := by
  have hD : "DRINKING" ++ "_" = "DRINKING_" := by decide
  have hA : "ADDING" ++ "_" = "ADDING_" := by decide
  have hT : "THROWING" ++ "_" = "THROWING_" := by decide
  rcases lt_or_gt_of_ne h with hneg | hpos
  · have hn : ¬ ml > 0 := not_lt.mpr hneg.le
    rw [abs_of_neg hneg]
    cases lid <;> simp [flushTag, kindName, hneg, hn, hD, hT]
  · have hn : ¬ ml < 0 := not_lt.mpr hpos.le
    rw [abs_of_pos hpos]
    cases lid <;> simp [flushTag, kindName, hpos, hn, hA]

theorem beforeFlush_deviceConnected (s : State) (inp : Input) :
    (beforeFlush s inp).deviceConnected = s.deviceConnected := by
  have hl := (lidBlock_weight_fields s inp.pinLow).2.2.2.2
  unfold beforeFlush sampleBlock
  split
  · dsimp only
    split <;> exact hl
  · exact hl

/-- C9: when `now - lastRead` is below 2000 the sampling step changes nothing (in particular
none of `lastWeight`, `accDelta`, `lastRead`, `lastEventTime`); when it is at least 2000 the
step sets `lastRead` to `now` and `lastWeight` to the reading, whatever the reading, also when
its delta is rejected as noise. -/
theorem C9_sampling_gate (s : State) (now : Nat) (w : ℚ) :
    (subUL now s.lastRead < MEASURE_MS →
      sampleBlock s now w = s ∧
      (sampleBlock s now w).lastWeight = s.lastWeight ∧
      (sampleBlock s now w).accDelta = s.accDelta ∧
      (sampleBlock s now w).lastRead = s.lastRead ∧
      (sampleBlock s now w).lastEventTime = s.lastEventTime) ∧
    (subUL now s.lastRead ≥ MEASURE_MS →
      (sampleBlock s now w).lastRead = now ∧ (sampleBlock s now w).lastWeight = w) ∧
    MEASURE_MS = 2000 := by
  refine ⟨?_, ?_, rfl⟩
  · intro h
    have hs : sampleBlock s now w = s := by
      unfold sampleBlock
      rw [if_neg (not_le.mpr h)]
    rw [hs]
    exact ⟨rfl, rfl, rfl, rfl, rfl⟩
  · intro h
    unfold sampleBlock
    rw [if_pos h]
    dsimp only
    split <;> exact ⟨rfl, rfl⟩

/-- Witness of C9: from `mug500` (last read at 0) a reading at 1999 ms is not taken, and a
reading of 505 g at 2000 ms, a noise delta, still moves `lastRead` and `lastWeight`. -/
theorem C9_sampling_gate_witness :
    subUL 1999 mug500.lastRead < MEASURE_MS ∧ sampleBlock mug500 1999 440 = mug500 ∧
    subUL 2000 mug500.lastRead ≥ MEASURE_MS ∧ |(505 : ℚ) - mug500.lastWeight| ≤ NOISE_G ∧
    (sampleBlock mug500 2000 505).lastRead = 2000 ∧
    (sampleBlock mug500 2000 505).lastWeight = 505 :=
  ⟨by decide, ((C9_sampling_gate mug500 1999 440).1 (by decide)).1, by decide, by decide!,
   (C9_sampling_gate mug500 2000 505).2.1 (by decide)⟩

theorem beforeFlush_sameWeightState {s1 s2 : State} {i1 i2 : Input}
    (hs : SameWeightState s1 s2) (hnow : i1.now = i2.now) (hw : i1.weight = i2.weight) :
    SameWeightState (beforeFlush s1 i1) (beforeFlush s2 i2) := by
  obtain ⟨hw1, ha1, hr1, he1, -⟩ := lidBlock_weight_fields s1 i1.pinLow
  obtain ⟨hw2, ha2, hr2, he2, -⟩ := lidBlock_weight_fields s2 i2.pinLow
  obtain ⟨hsw, hsa, hsr, hse⟩ := hs
  unfold SameWeightState beforeFlush sampleBlock
  rw [hr1, hr2, hw1, hw2, hnow, hw, hsr, hsw]
  split
  · dsimp only
    split
    · exact ⟨rfl, by rw [ha1, ha2, hsa], rfl, rfl⟩
    · exact ⟨rfl, by rw [ha1, ha2, hsa], rfl, by rw [he1, he2, hse]⟩
  · exact ⟨by rw [hw1, hw2, hsw], by rw [ha1, ha2, hsa], by rw [hr1, hr2, hsr],
      by rw [he1, he2, hse]⟩

theorem flushGuard_congr {s1 s2 : State} (hs : SameWeightState s1 s2) (now : Nat) :
    flushGuard s1 now ↔ flushGuard s2 now := by
  unfold flushGuard
  rw [hs.2.1, hs.2.2.2]

theorem loop_sameWeightState {s1 s2 : State} {i1 i2 : Input}
    (hs : SameWeightState s1 s2) (hnow : i1.now = i2.now) (hw : i1.weight = i2.weight) :
    SameWeightState (loop s1 i1).1 (loop s2 i2).1 := by
  have hb := beforeFlush_sameWeightState hs hnow hw
  have hgc := flushGuard_congr hb i1.now
  by_cases hg : flushGuard (beforeFlush s1 i1) i1.now
  · have hg2 : flushGuard (beforeFlush s2 i2) i2.now := hnow ▸ hgc.mp hg
    rw [loop_state_of_guard hg, loop_state_of_guard hg2]
    exact ⟨hb.1, rfl, hb.2.2.1, hnow⟩
  · have hg2 : ¬ flushGuard (beforeFlush s2 i2) i2.now := fun h => hg (hgc.mpr (hnow ▸ h))
    rw [loop_state_of_not_guard hg, loop_state_of_not_guard hg2]
    exact hb

theorem run_sameWeightState {s1 s2 : State} (hs : SameWeightState s1 s2)
    (run1 run2 : List Input)
    (hruns : run1.map (fun i => (i.now, i.weight)) = run2.map (fun i => (i.now, i.weight))) :
    SameWeightState (run s1 run1) (run s2 run2) := by
  induction run1 generalizing s1 s2 run2 with
  | nil =>
    cases run2 with
    | nil => exact hs
    | cons j rest2 => simp at hruns
  | cons i rest ih =>
    cases run2 with
    | nil => simp at hruns
    | cons j rest2 =>
      simp only [List.map_cons, List.cons.injEq, Prod.mk.injEq] at hruns
      exact ih (loop_sameWeightState hs hruns.1.1 hruns.1.2) rest2 hruns.2

theorem loop_output_congr_lid {s1 s2 : State} {i1 i2 : Input}
    (hs : SameWeightState s1 s2) (hnow : i1.now = i2.now) (hw : i1.weight = i2.weight)
    (hlid : i1.pinLow = i2.pinLow) :
    (loop s1 i1).2.tag = (loop s2 i2).2.tag ∧
    (loop s1 i1).2.flushed = (loop s2 i2).2.flushed := by
  have hb := beforeFlush_sameWeightState hs hnow hw
  have hgc := flushGuard_congr hb i1.now
  by_cases hg : flushGuard (beforeFlush s1 i1) i1.now
  · have hg2 : flushGuard (beforeFlush s2 i2) i2.now := hnow ▸ hgc.mp hg
    refine ⟨?_, ?_⟩
    · rw [loop_tag_of_guard hg, loop_tag_of_guard hg2, beforeFlush_lastLidClosed,
        beforeFlush_lastLidClosed, hb.2.1, hnow, hlid]
    · rw [(loop_flushed_iff s1 i1).mpr hg, (loop_flushed_iff s2 i2).mpr hg2]
  · have hg2 : ¬ flushGuard (beforeFlush s2 i2) i2.now := fun h => hg (hgc.mpr (hnow ▸ h))
    refine ⟨?_, ?_⟩
    · rw [loop_tag_of_not_guard hg, loop_tag_of_not_guard hg2]
    · have hf1 : (loop s1 i1).2.flushed = false := by
        rw [← Bool.not_eq_true, loop_flushed_iff]
        exact hg
      have hf2 : (loop s2 i2).2.flushed = false := by
        rw [← Bool.not_eq_true, loop_flushed_iff]
        exact hg2
      rw [hf1, hf2]

/-- C10: the tag of a flushed weight event depends on the lid reading of the iteration that
flushes and on no earlier lid reading: two runs that agree on all timestamps and weight
readings, started with the same weight-channel variables, and followed by iterations with the
same timestamp, weight and lid reading produce the same tag there, whatever the earlier lid
readings and the earlier `lastLidClosed` were; the lid state tested by the flush is the reading
of that iteration.  A drop of 60 g sampled with the lid open and flushed after the lid was
closed is reported as `THROWING_60_ml@7000`. -/
theorem C10_lid_at_flush_time (s1 s2 : State) (run1 run2 : List Input) (i1 i2 : Input)
    (hs : SameWeightState s1 s2)
    (hruns : run1.map (fun i => (i.now, i.weight)) = run2.map (fun i => (i.now, i.weight)))
    (hnow : i1.now = i2.now) (hw : i1.weight = i2.weight) (hlid : i1.pinLow = i2.pinLow) :
    (loop (run s1 run1) i1).2.tag = (loop (run s2 run2) i2).2.tag ∧
    (loop (run s1 run1) i1).2.flushed = (loop (run s2 run2) i2).2.flushed ∧
    (beforeFlush (run s1 run1) i1).lastLidClosed = i1.pinLow ∧
    (outputs mug500 (lidClosesWhilePending ++ [at7000Closed])).map (fun o => o.tag) =
      [none, none, none, none, some "THROWING_60_ml@7000"] := by
  have hrun := run_sameWeightState hs run1 run2 hruns
  obtain ⟨ht, hf⟩ := loop_output_congr_lid hrun hnow hw hlid
  exact ⟨ht, hf, beforeFlush_lastLidClosed _ _, by decide!⟩

/-- Witness of C10: the drop of 60 g is flushed at 7000 ms with the lid closed; whether the
lid was open or closed while the change was pending, the tag is `THROWING_60_ml@7000`. -/
theorem C10_lid_at_flush_time_witness :
    SameWeightState mug500 mug500 ∧
    lidClosesWhilePending.map (fun i => (i.now, i.weight)) =
      lidClosedThroughout.map (fun i => (i.now, i.weight)) ∧
    lidClosesWhilePending ≠ lidClosedThroughout ∧
    (loop (run mug500 lidClosesWhilePending) at7000Closed).2.tag =
      some "THROWING_60_ml@7000" ∧
    (loop (run mug500 lidClosesWhilePending) at7000Closed).2.tag =
      (loop (run mug500 lidClosedThroughout) at7000Closed).2.tag :=
  ⟨by decide!, by decide!, by decide!, by decide!,
   (C10_lid_at_flush_time mug500 mug500 lidClosesWhilePending lidClosedThroughout
     at7000Closed at7000Closed (by decide!) (by decide!) rfl rfl rfl).1⟩

theorem subUL_of_lt {a b : Nat} (h : a < b) (hb : b < ULONG_MOD) :
    subUL a b = ULONG_MOD - (b - a) := by
  simp only [subUL, ULONG_MOD] at *
  omega

/-- C11, as the code has it: a `now` numerically earlier than the recorded `lastEventTime` is
taken for a later time after a wrap of the 32-bit counter: the elapsed time computed is
`2^32 - (lastEventTime - now)`, and the iteration flushes exactly when `accDelta` is not zero
and that value is at least 5000, that is when `lastEventTime - now ≤ 2^32 - 5000`.  Likewise a
`now` earlier than `lastRead` passes the sampling gate exactly when
`lastRead - now ≤ 2^32 - 2000`. -/
theorem C11_earlier_timestamp (s : State) (inp : Input) :
    (inp.now < (beforeFlush s inp).lastEventTime →
      (beforeFlush s inp).lastEventTime < ULONG_MOD →
      subUL inp.now (beforeFlush s inp).lastEventTime =
        ULONG_MOD - ((beforeFlush s inp).lastEventTime - inp.now) ∧
      ((loop s inp).2.flushed = true ↔
        ((beforeFlush s inp).accDelta ≠ 0 ∧
          (beforeFlush s inp).lastEventTime - inp.now ≤ ULONG_MOD - 5000))) ∧
    (inp.now < s.lastRead → s.lastRead < ULONG_MOD →
      subUL inp.now s.lastRead = ULONG_MOD - (s.lastRead - inp.now) ∧
      (subUL inp.now s.lastRead ≥ MEASURE_MS ↔ s.lastRead - inp.now ≤ ULONG_MOD - 2000)) := by
  constructor
  · intro hlt hM
    have hsub := subUL_of_lt hlt hM
    refine ⟨hsub, ?_⟩
    rw [loop_flushed_iff]
    unfold flushGuard
    rw [hsub]
    simp only [STABLE_MS, ULONG_MOD] at *
    constructor
    · rintro ⟨ha, hge⟩
      exact ⟨ha, by omega⟩
    · rintro ⟨ha, hle⟩
      exact ⟨ha, by omega⟩
  · intro hlt hM
    have hsub := subUL_of_lt hlt hM
    refine ⟨hsub, ?_⟩
    rw [hsub]
    simp only [MEASURE_MS, ULONG_MOD] at *
    omega

/-- Witness of C11: `wrapPending` at 4000 ms flushes (elapsed time 5000 across the wrap), and
`wrapSampled` at 1000 ms passes the sampling gate (2000 ms across the wrap). -/
theorem C11_earlier_timestamp_witness :
    (at4000.now < (beforeFlush wrapPending at4000).lastEventTime ∧
      (beforeFlush wrapPending at4000).lastEventTime < ULONG_MOD ∧
      subUL at4000.now (beforeFlush wrapPending at4000).lastEventTime =
        ULONG_MOD - ((beforeFlush wrapPending at4000).lastEventTime - at4000.now) ∧
      (loop wrapPending at4000).2.flushed = true) ∧
    (at1000.now < wrapSampled.lastRead ∧ wrapSampled.lastRead < ULONG_MOD ∧
      subUL at1000.now wrapSampled.lastRead =
        ULONG_MOD - (wrapSampled.lastRead - at1000.now) ∧
      subUL at1000.now wrapSampled.lastRead ≥ MEASURE_MS) :=
  ⟨⟨by decide!, by decide!,
    ((C11_earlier_timestamp wrapPending at4000).1 (by decide!) (by decide!)).1,
    ((C11_earlier_timestamp wrapPending at4000).1 (by decide!) (by decide!)).2.mpr
      ⟨by decide!, by decide!⟩⟩,
   ⟨by decide, by decide,
    ((C11_earlier_timestamp wrapSampled at1000).2 (by decide) (by decide)).1,
    ((C11_earlier_timestamp wrapSampled at1000).2 (by decide) (by decide)).2.mpr
      (by decide)⟩⟩

/-- C11 as stated fails: `wrapPending` has `accDelta = -50` and `lastEventTime = 4294966296`;
the iteration at `now = 4000`, earlier than `lastEventTime`, computes the elapsed time 5000 and
flushes `DRINKING_50_ml@4000`.  `wrapSampled` has `lastRead = 4294966296`; the iteration at
`now = 1000` passes the sampling gate and takes the sample. -/
theorem C11_earlier_timestamp_counterexample :
    (beforeFlush wrapPending at4000).accDelta ≠ 0 ∧
    at4000.now < wrapPending.lastEventTime ∧
    at4000.now < (beforeFlush wrapPending at4000).lastEventTime ∧
    subUL at4000.now (beforeFlush wrapPending at4000).lastEventTime = 5000 ∧
    (loop wrapPending at4000).2.flushed = true ∧
    (loop wrapPending at4000).2.tag = some "DRINKING_50_ml@4000" ∧
    at1000.now < wrapSampled.lastRead ∧
    subUL at1000.now wrapSampled.lastRead ≥ MEASURE_MS ∧
    (loop wrapSampled at1000).1.lastRead = 1000 ∧
    (loop wrapSampled at1000).1.lastWeight = 455 := by
  decide!

theorem loop_println_of_guard {s : State} {inp : Input}
    (h : flushGuard (beforeFlush s inp) inp.now) :
    Effect.serialPrintln (">> " ++ flushTag (beforeFlush s inp).accDelta
      (beforeFlush s inp).lastLidClosed (toString inp.now) ++ connSuffix s.deviceConnected)
      ∈ (loop s inp).2.effects := by
  have hlen := flushTag_length_ne_zero h.1 (beforeFlush s inp).lastLidClosed (toString inp.now)
  have hdc := beforeFlush_deviceConnected s inp
  unfold beforeFlush at h hlen hdc
  simp only [loop, flushBlock, if_pos h, beforeFlush]
  rw [if_pos hlen, hdc]
  simp

/-- C16: with 32-bit timestamps, for a recorded timestamp `t` and a true time `t + e` with
`e < 2^32`, the elapsed value the code computes from the wrapped counter is `e`; so the
sampling gate passes exactly when `e ≥ 2000` and the stability guard holds exactly when
`accDelta` is not zero and `e ≥ 5000`, also when `millis()` wrapped between the two
readings. -/
theorem C16_counter_rollover (t e : Nat) (he : e < ULONG_MOD) :
    subUL ((t + e) % ULONG_MOD) (t % ULONG_MOD) = e ∧
    (subUL ((t + e) % ULONG_MOD) (t % ULONG_MOD) ≥ MEASURE_MS ↔ e ≥ 2000) ∧
    (subUL ((t + e) % ULONG_MOD) (t % ULONG_MOD) ≥ STABLE_MS ↔ e ≥ 5000) ∧
    (∀ (s : State) (w : ℚ), s.lastRead = t % ULONG_MOD → e < 2000 →
      sampleBlock s ((t + e) % ULONG_MOD) w = s) ∧
    (∀ (s : State) (w : ℚ), s.lastRead = t % ULONG_MOD → e ≥ 2000 →
      (sampleBlock s ((t + e) % ULONG_MOD) w).lastRead = (t + e) % ULONG_MOD ∧
      (sampleBlock s ((t + e) % ULONG_MOD) w).lastWeight = w) ∧
    (∀ s : State, s.lastEventTime = t % ULONG_MOD →
      (flushGuard s ((t + e) % ULONG_MOD) ↔ s.accDelta ≠ 0 ∧ e ≥ 5000)) := by
  have hsub : subUL ((t + e) % ULONG_MOD) (t % ULONG_MOD) = e := by
    simp only [subUL, ULONG_MOD] at *
    omega
  refine ⟨hsub, ?_, ?_, ?_, ?_, ?_⟩
  · rw [hsub]
    rfl
  · rw [hsub]
    rfl
  · intro s w hs hlt
    unfold sampleBlock
    rw [hs, hsub, if_neg]
    simp only [MEASURE_MS]
    omega
  · intro s w hs hge
    unfold sampleBlock
    rw [hs, hsub, if_pos (by simpa [MEASURE_MS] using hge)]
    dsimp only
    split <;> exact ⟨rfl, rfl⟩
  · intro s hs
    unfold flushGuard
    rw [hs, hsub]
    rfl

/-- Witness of C16: the timestamp 4294966296 and the true time 5000 ms later (the counter
reads 4000): the elapsed value is 5000 and `wrapPending` passes the guard. -/
theorem C16_counter_rollover_witness :
    (5000 : Nat) < ULONG_MOD ∧ (4294966296 + 5000) % ULONG_MOD = 4000 ∧
    subUL ((4294966296 + 5000) % ULONG_MOD) (4294966296 % ULONG_MOD) = 5000 ∧
    flushGuard wrapPending ((4294966296 + 5000) % ULONG_MOD) :=
  ⟨by decide, by decide, (C16_counter_rollover 4294966296 5000 (by decide)).1,
   ((C16_counter_rollover 4294966296 5000 (by decide)).2.2.2.2.2 wrapPending
     (by decide)).mpr ⟨by decide!, by decide⟩⟩

theorem lidBlock_connection (s : State) (c r : Bool) :
    (lidBlock { s with deviceConnected := c } r).1 =
      { (lidBlock s r).1 with deviceConnected := c } ∧
    (lidBlock { s with deviceConnected := c } r).2.text = (lidBlock s r).2.text := by
  unfold lidBlock
  dsimp only
  split <;> exact ⟨rfl, rfl⟩

theorem sampleBlock_connection (s : State) (c : Bool) (now : Nat) (w : ℚ) :
    sampleBlock { s with deviceConnected := c } now w =
      { sampleBlock s now w with deviceConnected := c } := by
  unfold sampleBlock
  dsimp only
  split
  · split <;> rfl
  · rfl

theorem flushBlock_connection (s : State) (c : Bool) (now : Nat) :
    (flushBlock { s with deviceConnected := c } now).1 =
      { (flushBlock s now).1 with deviceConnected := c } ∧
    (flushBlock { s with deviceConnected := c } now).2.1 = (flushBlock s now).2.1 ∧
    (flushBlock { s with deviceConnected := c } now).2.2.text = (flushBlock s now).2.2.text := by
  unfold flushBlock flushGuard
  dsimp only
  split
  · refine ⟨rfl, rfl, ?_⟩
    split <;> rfl
  · exact ⟨rfl, rfl, rfl⟩

theorem loop_connection (s : State) (c : Bool) (inp : Input) :
    (loop { s with deviceConnected := c } inp).1 =
      { (loop s inp).1 with deviceConnected := c } ∧
    (loop { s with deviceConnected := c } inp).2.lidMsg = (loop s inp).2.lidMsg ∧
    (loop { s with deviceConnected := c } inp).2.flushed = (loop s inp).2.flushed ∧
    (loop { s with deviceConnected := c } inp).2.tag = (loop s inp).2.tag := by
  obtain ⟨hl1, hl2⟩ := lidBlock_connection s c inp.pinLow
  unfold loop
  dsimp only
  rw [hl1, hl2, sampleBlock_connection]
  obtain ⟨hf1, hf2, hf3⟩ := flushBlock_connection
    (sampleBlock (lidBlock s inp.pinLow).1 inp.now inp.weight) c inp.now
  rw [hf1, hf2, hf3]
  exact ⟨rfl, rfl, rfl, rfl⟩

theorem loop_deviceConnected (s : State) (inp : Input) :
    (loop s inp).1.deviceConnected = s.deviceConnected := by
  have h := beforeFlush_deviceConnected s inp
  by_cases hg : flushGuard (beforeFlush s inp) inp.now
  · rw [loop_state_of_guard hg]
    exact h
  · rw [loop_state_of_not_guard hg]
    exact h

theorem onConnect_onDisconnect {x : State} (h : x.deviceConnected = true) :
    onConnect (onDisconnect x) = x := by
  cases x
  simp_all [onConnect, onDisconnect]

theorem loop_effects (s : State) (inp : Input) :
    (loop s inp).2.effects =
      publishEffects s.deviceConnected Effect.lidNotify (loop s inp).2.lidMsg ++
      publishEffects s.deviceConnected Effect.drinkNotify (loop s inp).2.tag := by
  have hdc := beforeFlush_deviceConnected s inp
  have hl : (lidBlock s inp.pinLow).2.effects =
      publishEffects s.deviceConnected Effect.lidNotify (lidBlock s inp.pinLow).2.text := by
    unfold lidBlock
    split <;> rfl
  have hf : ∀ s2 : State, (flushBlock s2 inp.now).2.2.effects =
      publishEffects s2.deviceConnected Effect.drinkNotify (flushBlock s2 inp.now).2.2.text := by
    intro s2
    unfold flushBlock
    dsimp only
    split
    · split <;> rfl
    · rfl
  unfold beforeFlush at hdc
  unfold loop
  dsimp only
  rw [hl, hf, hdc]

/-- C13: the variables `lastWeight`, `accDelta`, `lastRead`, `lastEventTime` and
`lastLidClosed` after one iteration of `loop()`, and the lid message and the weight tag built
in it, are the same whether `deviceConnected` is true or false; `deviceConnected` decides
whether the notification is sent (and which suffix the serial line carries).  A flush while
disconnected still resets `accDelta` to 0, and after a later reconnection every iteration
behaves as if the client had been connected during the flush: the event is not sent again. -/
theorem C13_publish_independence (s : State) (inp : Input) :
    (loop (onDisconnect s) inp).1 = onDisconnect (loop (onConnect s) inp).1 ∧
    ((loop (onDisconnect s) inp).1.lastWeight = (loop (onConnect s) inp).1.lastWeight ∧
      (loop (onDisconnect s) inp).1.accDelta = (loop (onConnect s) inp).1.accDelta ∧
      (loop (onDisconnect s) inp).1.lastRead = (loop (onConnect s) inp).1.lastRead ∧
      (loop (onDisconnect s) inp).1.lastEventTime = (loop (onConnect s) inp).1.lastEventTime ∧
      (loop (onDisconnect s) inp).1.lastLidClosed = (loop (onConnect s) inp).1.lastLidClosed) ∧
    ((loop (onDisconnect s) inp).2.lidMsg = (loop (onConnect s) inp).2.lidMsg ∧
      (loop (onDisconnect s) inp).2.tag = (loop (onConnect s) inp).2.tag ∧
      (loop (onDisconnect s) inp).2.flushed = (loop (onConnect s) inp).2.flushed) ∧
    (loop (onConnect s) inp).2.effects =
      publishEffects true Effect.lidNotify (loop (onConnect s) inp).2.lidMsg ++
      publishEffects true Effect.drinkNotify (loop (onConnect s) inp).2.tag ∧
    (loop (onDisconnect s) inp).2.effects =
      publishEffects false Effect.lidNotify (loop (onConnect s) inp).2.lidMsg ++
      publishEffects false Effect.drinkNotify (loop (onConnect s) inp).2.tag ∧
    ((loop (onDisconnect s) inp).2.flushed = true →
      (loop (onDisconnect s) inp).1.accDelta = 0) ∧
    (∀ rest : List Input,
      outputs (onConnect (loop (onDisconnect s) inp).1) rest =
        outputs (loop (onConnect s) inp).1 rest) := by
  obtain ⟨hT1, hT2, hT3, hT4⟩ := loop_connection s true inp
  obtain ⟨hF1, hF2, hF3, hF4⟩ := loop_connection s false inp
  have hst : (loop (onDisconnect s) inp).1 = onDisconnect (loop (onConnect s) inp).1 := by
    unfold onDisconnect onConnect
    rw [hT1, hF1]
  have hmsg : (loop (onDisconnect s) inp).2.lidMsg = (loop (onConnect s) inp).2.lidMsg := by
    unfold onDisconnect onConnect
    rw [hT2, hF2]
  have htag : (loop (onDisconnect s) inp).2.tag = (loop (onConnect s) inp).2.tag := by
    unfold onDisconnect onConnect
    rw [hT4, hF4]
  have hfl : (loop (onDisconnect s) inp).2.flushed = (loop (onConnect s) inp).2.flushed := by
    unfold onDisconnect onConnect
    rw [hT3, hF3]
  have hdcT : (loop (onConnect s) inp).1.deviceConnected = true := loop_deviceConnected _ _
  refine ⟨hst, ?_, ⟨hmsg, htag, hfl⟩, loop_effects (onConnect s) inp, ?_, ?_, ?_⟩
  · rw [hst]
    exact ⟨rfl, rfl, rfl, rfl, rfl⟩
  · rw [← hmsg, ← htag]
    exact loop_effects (onDisconnect s) inp
  · intro hf
    have hg := (loop_flushed_iff _ _).mp hf
    rw [loop_state_of_guard hg]
  · intro rest
    rw [hst, onConnect_onDisconnect hdcT]

/-- Witness of C13: `pendingFifty` is flushed at 7000 ms with no client connected: `accDelta`
is reset, the tag is built, nothing is notified. -/
theorem C13_publish_independence_witness :
    (loop (onDisconnect pendingFifty) at7000).2.flushed = true ∧
    (loop (onDisconnect pendingFifty) at7000).1.accDelta = 0 ∧
    (loop (onDisconnect pendingFifty) at7000).2.tag = some "DRINKING_50_ml@7000" ∧
    (loop (onDisconnect pendingFifty) at7000).2.effects =
      [Effect.serialPrintln ">> DRINKING_50_ml@7000 (Not connected)"] ∧
    (loop (onConnect pendingFifty) at7000).2.effects =
      [Effect.drinkNotify "DRINKING_50_ml@7000",
       Effect.serialPrintln ">> DRINKING_50_ml@7000 (Notified)"] :=
  ⟨by decide!, (C13_publish_independence pendingFifty at7000).2.2.2.2.2.1 (by decide!),
   by decide!, by decide!, by decide!⟩

theorem quiet_trace (s : State) (inps : List Input) (h0 : s.accDelta = 0)
    (hq : quiet s.lastWeight s.lastRead inps) :
    ∀ p ∈ trace s inps, p.1.accDelta = 0 ∧ p.2.tag = none ∧ p.2.flushed = false := by
  induction inps generalizing s with
  | nil => simp [trace]
  | cons inp rest ih =>
    have hacc : (beforeFlush s inp).accDelta = 0 ∧
        quiet (beforeFlush s inp).lastWeight (beforeFlush s inp).lastRead rest := by
      unfold quiet at hq
      by_cases hg : subUL inp.now s.lastRead ≥ MEASURE_MS
      · obtain ⟨hw, hr, ha⟩ := beforeFlush_of_gate hg
        rw [if_pos hg] at hq
        rw [hw, hr, ha, if_neg (not_lt.mpr hq.1), h0]
        exact ⟨add_zero 0, hq.2⟩
      · obtain ⟨hw, hr, ha, -⟩ := beforeFlush_of_not_gate hg
        rw [if_neg hg] at hq
        rw [hw, hr, ha]
        exact ⟨h0, hq⟩
    have hng : ¬ flushGuard (beforeFlush s inp) inp.now := fun hg => hg.1 hacc.1
    have hst := loop_state_of_not_guard hng
    intro p hp
    simp only [trace, List.mem_cons] at hp
    rcases hp with rfl | hp
    · refine ⟨by rw [hst]; exact hacc.1, loop_tag_of_not_guard hng, ?_⟩
      rw [← Bool.not_eq_true, loop_flushed_iff]
      exact hng
    · rw [hst] at hp
      exact ih _ hacc.1 hacc.2 p hp

/-- C14: in every run of `loop()` that starts with `accDelta = 0` and in which each
gate-passing sample differs from `lastWeight` by at most 10.0 g, `accDelta` is 0 after every
iteration and no weight event is emitted, however large the total change of mass: 100
consecutive samples, each 9 g lighter than the one before, take `lastWeight` from 1000 g to
100 g without any event. -/
theorem C14_slow_change_unreported (s : State) (inps : List Input) (h0 : s.accDelta = 0)
    (hq : quiet s.lastWeight s.lastRead inps) :
    (∀ p ∈ trace s inps, p.1.accDelta = 0 ∧ p.2.tag = none ∧ p.2.flushed = false) ∧
    (quiet mug1000.lastWeight mug1000.lastRead slowDrain ∧
      (run mug1000 slowDrain).lastWeight = 100 ∧
      (run mug1000 slowDrain).lastRead = 200000 ∧
      (run mug1000 slowDrain).accDelta = 0 ∧
      (outputs mug1000 slowDrain).map (fun o => o.tag) = List.replicate 100 none) := by
  refine ⟨quiet_trace s inps h0 hq, ?_⟩
  decide!

/-- Witness of C14: the slow drain of 900 g from `mug1000`. -/
theorem C14_slow_change_unreported_witness :
    mug1000.accDelta = 0 ∧ quiet mug1000.lastWeight mug1000.lastRead slowDrain ∧
    (∀ p ∈ trace mug1000 slowDrain,
      p.1.accDelta = 0 ∧ p.2.tag = none ∧ p.2.flushed = false) :=
  ⟨by decide!, by decide!,
   (C14_slow_change_unreported mug1000 slowDrain (by decide!) (by decide!)).1⟩

theorem beforeFlush_lastEventTime_bounds {s : State} {inp : Input}
    (h : s.lastEventTime ≤ inp.now) :
    s.lastEventTime ≤ (beforeFlush s inp).lastEventTime ∧
    (beforeFlush s inp).lastEventTime ≤ inp.now := by
  rcases beforeFlush_lastEventTime s inp with h1 | h1 <;> rw [h1]
  · exact ⟨le_refl _, h⟩
  · exact ⟨h, le_refl _⟩

theorem eventTimes_spacing (s : State) (inps : List Input)
    (hmono : List.Chain (fun a b => a ≤ b) s.lastEventTime (inps.map fun i => i.now))
    (hM : ∀ i ∈ inps, i.now < ULONG_MOD) :
    List.Chain (fun a b => a + 5000 ≤ b) s.lastEventTime (eventTimes s inps) := by
  induction inps generalizing s with
  | nil => exact List.Chain.nil
  | cons inp rest ih =>
    rw [List.map_cons, List.chain_cons] at hmono
    obtain ⟨hle, hrest⟩ := hmono
    obtain ⟨hlo, hhi⟩ := beforeFlush_lastEventTime_bounds hle
    have hMi : inp.now < ULONG_MOD := hM inp (List.mem_cons_self _ _)
    have hMr : ∀ i ∈ rest, i.now < ULONG_MOD := fun i hi => hM i (List.mem_cons_of_mem _ hi)
    unfold eventTimes
    by_cases hg : flushGuard (beforeFlush s inp) inp.now
    · have hsub := subUL_of_le hhi hMi
      have h5 : (beforeFlush s inp).lastEventTime + 5000 ≤ inp.now := by
        have := hg.2
        rw [hsub] at this
        simp only [STABLE_MS] at this
        omega
      have hst := loop_state_of_guard hg
      have hlet : (loop s inp).1.lastEventTime = inp.now := by rw [hst]
      rw [loop_tag_of_guard hg]
      simp only [Option.isSome_some, if_true, List.singleton_append]
      refine List.Chain.cons (by omega) ?_
      have := ih (loop s inp).1 (by rw [hlet]; exact hrest) hMr
      rw [hlet] at this
      exact this
    · have hst := loop_state_of_not_guard hg
      rw [loop_tag_of_not_guard hg, hst]
      simp only [Option.isSome_none, Bool.false_eq_true, if_false, List.nil_append]
      have hmono2 : List.Chain (fun a b => a ≤ b) (beforeFlush s inp).lastEventTime
          (rest.map fun i => i.now) :=
        List.Chain.imp' (fun _ _ h => h) (fun _ h => le_trans hhi h) hrest
      have := ih (beforeFlush s inp) hmono2 hMr
      have hhead : ∀ ⦃c : Nat⦄, (beforeFlush s inp).lastEventTime + 5000 ≤ c →
          s.lastEventTime + 5000 ≤ c := fun c h => by omega
      exact @List.Chain.imp' Nat (fun a b => a + 5000 ≤ b) (fun a b => a + 5000 ≤ b)
        (fun _ _ h => h) _ _ hhead _ this

theorem loop_drinkNotify_count (s : State) (inp : Input) :
    ((loop s inp).2.effects.filter Effect.isDrinkNotify).length ≤ 1 := by
  rw [loop_effects]
  cases (loop s inp).2.lidMsg <;> cases (loop s inp).2.tag <;> cases s.deviceConnected <;>
    simp [publishEffects, Effect.isDrinkNotify]

/-- C15: in every run of `loop()` whose timestamps do not decrease (starting at or after
`lastEventTime`, without a wrap of the counter), the timestamp of the first weight event is at
least 5000 ms after the `lastEventTime` the run starts with, and any two consecutive weight
events are at least 5000 ms apart; each iteration emits at most one weight event (one optional
tag, at most one notification).  After `setup()` the starting `lastEventTime` is the timestamp
`setup()` recorded. -/
theorem C15_event_spacing (s : State) (inps : List Input)
    (hmono : List.Chain (fun a b => a ≤ b) s.lastEventTime (inps.map fun i => i.now))
    (hM : ∀ i ∈ inps, i.now < ULONG_MOD) :
    List.Chain (fun a b => a + 5000 ≤ b) s.lastEventTime (eventTimes s inps) ∧
    (∀ t ∈ eventTimes s inps, s.lastEventTime + 5000 ≤ t) ∧
    List.Chain' (fun a b => a + 5000 ≤ b) (eventTimes s inps) ∧
    (∀ o ∈ outputs s inps, (o.effects.filter Effect.isDrinkNotify).length ≤ 1) ∧
    (∀ (w : ℚ) (p : Bool) (t1 t2 : Nat), setup true w p t1 t2 = some s →
      s.lastEventTime = t2) := by
  have hchain := eventTimes_spacing s inps hmono hM
  have hchain' : List.Chain' (fun a b => a + 5000 ≤ b) (s.lastEventTime :: eventTimes s inps) :=
    hchain
  refine ⟨hchain, ?_, hchain'.tail, ?_, ?_⟩
  · have htrans : List.Chain (fun a b => a + 5000 ≤ b) s.lastEventTime (eventTimes s inps) →
        ∀ t ∈ eventTimes s inps, s.lastEventTime + 5000 ≤ t := by
      generalize s.lastEventTime = a
      generalize eventTimes s inps = l
      intro hc
      induction l generalizing a with
      | nil => simp
      | cons b rest ih =>
        rw [List.chain_cons] at hc
        intro t ht
        rcases List.mem_cons.mp ht with rfl | ht
        · exact hc.1
        · have := ih b hc.2 t ht
          omega
    exact htrans hchain
  · intro o ho
    clear hchain' hchain hmono hM
    induction inps generalizing s with
    | nil => simp [outputs] at ho
    | cons inp rest ih =>
      simp only [outputs, List.mem_cons] at ho
      rcases ho with rfl | ho
      · exact loop_drinkNotify_count s inp
      · exact ih _ ho
  · intro w p t1 t2 hs
    simp only [setup, if_true, Option.some.injEq] at hs
    rw [← hs]

/-- Witness of C15: in `twoEvents` from `mug500` the weight events are at 8000 ms and
16000 ms. -/
theorem C15_event_spacing_witness :
    List.Chain (fun a b => a ≤ b) mug500.lastEventTime (twoEvents.map fun i => i.now) ∧
    (∀ i ∈ twoEvents, i.now < ULONG_MOD) ∧
    eventTimes mug500 twoEvents = [8000, 16000] ∧
    List.Chain (fun a b => a + 5000 ≤ b) mug500.lastEventTime (eventTimes mug500 twoEvents) :=
  ⟨by simp [mug500, twoEvents], by decide, by decide!,
   (C15_event_spacing mug500 twoEvents (by simp [mug500, twoEvents]) (by decide)).1⟩

/-- C18: a weight event can report the magnitude 0.  From `mug500` the accepted deltas +10.5
(at 2000 ms) and -10.25 (at 4000 ms) leave `accDelta = 0.25`, and the flush at 9000 ms, 5000 ms
after the last of them, emits `ADDING_0_ml@9000`.  In every flush the integer printed is the
`n` with `n ≤ |accDelta| < n + 1`. -/
theorem C18_zero_magnitude (s : State) (inp : Input)
    (h : flushGuard (beforeFlush s inp) inp.now) :
    (acceptedDeltas mug500.lastWeight mug500.lastRead quarterGramRun = [21 / 2, -41 / 4] ∧
      (∀ o ∈ outputs mug500 quarterGramRun, o.flushed = false) ∧
      (beforeFlush (run mug500 quarterGramRun) at9000).accDelta = 1 / 4 ∧
      flushGuard (beforeFlush (run mug500 quarterGramRun) at9000) at9000.now ∧
      (loop (run mug500 quarterGramRun) at9000).2.tag = some "ADDING_0_ml@9000") ∧
    (loop s inp).2.tag = some (kindName (beforeFlush s inp).accDelta
        (beforeFlush s inp).lastLidClosed ++ "_" ++
      toString (castInt |(beforeFlush s inp).accDelta|) ++ "_ml@" ++ toString inp.now) ∧
    (castInt |(beforeFlush s inp).accDelta| : ℚ) ≤ |(beforeFlush s inp).accDelta| ∧
    |(beforeFlush s inp).accDelta| < (castInt |(beforeFlush s inp).accDelta| : ℚ) + 1 := by
  have hfloor := castInt_of_nonneg (abs_nonneg (beforeFlush s inp).accDelta)
  refine ⟨by decide!, ?_, ?_, ?_⟩
  · rw [loop_tag_of_guard h, flushTag_eq_kindName h.1]
  · rw [hfloor]
    exact Int.floor_le _
  · rw [hfloor]
    exact Int.lt_floor_add_one _

/-- Witness of C18: the flush of the pending 0.25 g at 9000 ms prints the integer 0. -/
theorem C18_zero_magnitude_witness :
    flushGuard (beforeFlush (run mug500 quarterGramRun) at9000) at9000.now ∧
    (loop (run mug500 quarterGramRun) at9000).2.tag = some "ADDING_0_ml@9000" ∧
    castInt |(beforeFlush (run mug500 quarterGramRun) at9000).accDelta| = 0 :=
  ⟨by decide!,
   (C18_zero_magnitude (run mug500 quarterGramRun) at9000 (by decide!)).2.1.trans
     (by decide!),
   by decide!⟩

theorem lidBlockX_toX (s : State) (r : Bool) :
    lidBlockX s.toX r = ((lidBlock s r).1.toX, (lidBlock s r).2) := by
  unfold lidBlockX lidBlock State.toX
  dsimp only
  split <;> rfl

theorem sampleBlockX_toX (s : State) (now : Nat) (w : ℚ) :
    sampleBlockX s.toX now (FloatX.fin w) = (sampleBlock s now w).toX := by
  unfold sampleBlockX sampleBlock State.toX
  dsimp only
  split
  · simp only [FloatX.sub, FloatX.neg, FloatX.add, FloatX.fabs, FloatX.lt, decide_eq_true_eq,
      ← sub_eq_add_neg]
    split <;> rfl
  · rfl

theorem flushTagX_fin (undef : Int) (ml : ℚ) (lid : Bool) (ts : String) :
    flushTagX undef (FloatX.fin ml) lid ts = flushTag ml lid ts := by
  simp only [flushTagX, flushTag, FloatX.lt, FloatX.neg, castIntX, decide_eq_true_eq, gt_iff_lt]

theorem flushGuardX_toX (s : State) (now : Nat) :
    flushGuardX s.toX now ↔ flushGuard s now := by
  simp only [flushGuardX, flushGuard, State.toX, FloatX.ne, decide_eq_true_eq]

theorem flushBlockX_toX (undef : Int) (s : State) (now : Nat) :
    flushBlockX undef s.toX now =
      ((flushBlock s now).1.toX, (flushBlock s now).2.1, (flushBlock s now).2.2) := by
  unfold flushBlockX flushBlock
  by_cases hg : flushGuard s now
  · rw [if_pos hg, if_pos ((flushGuardX_toX s now).mpr hg)]
    simp only [State.toX, flushTagX_fin]
  · rw [if_neg hg, if_neg (fun h => hg ((flushGuardX_toX s now).mp h))]

/-- On finite values the embedding over `FloatX` computes what the embedding over the
rationals computes. -/
theorem loopX_toX (undef : Int) (s : State) (inp : Input) :
    loopX undef s.toX inp.toX = ((loop s inp).1.toX, (loop s inp).2) := by
  unfold loopX loop Input.toX
  dsimp only
  rw [lidBlockX_toX]
  dsimp only
  rw [sampleBlockX_toX, flushBlockX_toX]

theorem lidBlockX_fields (s : StateX) (r : Bool) :
    (lidBlockX s r).1.lastLidClosed = r ∧
    (lidBlockX s r).1.deviceConnected = s.deviceConnected := by
  unfold lidBlockX
  split
  · exact ⟨rfl, rfl⟩
  · rename_i h
    simp only [ne_eq, not_not] at h
    exact ⟨h.symm, rfl⟩

theorem beforeFlushX_fields (s : StateX) (inp : InputX) :
    (beforeFlushX s inp).lastLidClosed = inp.pinLow ∧
    (beforeFlushX s inp).deviceConnected = s.deviceConnected := by
  obtain ⟨h1, h2⟩ := lidBlockX_fields s inp.pinLow
  unfold beforeFlushX sampleBlockX
  split
  · dsimp only
    split <;> exact ⟨h1, h2⟩
  · exact ⟨h1, h2⟩

theorem branchConditionsX_count (ml : FloatX) (lid : Bool)
    (hne : ml.ne (FloatX.fin 0) = true) :
    (ml ≠ FloatX.nan → (branchConditionsX ml lid).count true = 1) ∧
    (ml = FloatX.nan → (branchConditionsX ml lid).count true = 0) := by
  cases ml with
  | fin q =>
    have hq : q ≠ 0 := by simpa [FloatX.ne] using hne
    refine ⟨fun _ => ?_, fun h => by cases h⟩
    rcases lt_or_gt_of_ne hq with hneg | hpos
    · have hn : ¬ 0 < q := not_lt.mpr hneg.le
      cases lid <;> simp [branchConditionsX, FloatX.lt, hneg, hn]
    · have hn : ¬ q < 0 := not_lt.mpr hpos.le
      cases lid <;> simp [branchConditionsX, FloatX.lt, hpos, hn]
  | posInf => exact ⟨fun _ => by cases lid <;> decide, fun h => by cases h⟩
  | negInf => exact ⟨fun _ => by cases lid <;> decide, fun h => by cases h⟩
  | nan => exact ⟨fun h => absurd rfl h, fun _ => by cases lid <;> decide⟩

theorem flushTagX_length (undef : Int) (ml : FloatX) (lid : Bool) (ts : String)
    (hne : ml.ne (FloatX.fin 0) = true) :
    (ml ≠ FloatX.nan → (flushTagX undef ml lid ts).length ≠ 0) ∧
    (ml = FloatX.nan → flushTagX undef ml lid ts = "") := by
  have h9 : "DRINKING_".length = 9 := by decide
  have h7 : "ADDING_".length = 7 := by decide
  have h8 : "THROWING_".length = 9 := by decide
  cases ml with
  | fin q =>
    have hq : q ≠ 0 := by simpa [FloatX.ne] using hne
    refine ⟨fun _ => ?_, fun h => by cases h⟩
    rw [flushTagX_fin]
    exact flushTag_length_ne_zero hq lid ts
  | posInf =>
    refine ⟨fun _ => ?_, fun h => by cases h⟩
    cases lid <;> simp [flushTagX, FloatX.lt, String.length_append, h7]
  | negInf =>
    refine ⟨fun _ => ?_, fun h => by cases h⟩
    cases lid <;> simp [flushTagX, FloatX.lt, String.length_append, h9, h8]
  | nan =>
    refine ⟨fun h => absurd rfl h, fun _ => ?_⟩
    cases lid <;> simp [flushTagX, FloatX.lt]

theorem loopX_of_guard {undef : Int} {s : StateX} {inp : InputX}
    (h : flushGuardX (beforeFlushX s inp) inp.now) :
    (loopX undef s inp).1 =
      { beforeFlushX s inp with accDelta := FloatX.fin 0, lastEventTime := inp.now } ∧
    (loopX undef s inp).2.flushed = true := by
  unfold beforeFlushX at h
  simp only [loopX, flushBlockX, if_pos h, beforeFlushX]
  exact ⟨trivial, trivial⟩

theorem loopX_emits_of_guard {undef : Int} {s : StateX} {inp : InputX}
    (h : flushGuardX (beforeFlushX s inp) inp.now)
    (hlen : (flushTagX undef (beforeFlushX s inp).accDelta (beforeFlushX s inp).lastLidClosed
      (toString inp.now)).length ≠ 0) :
    (loopX undef s inp).2.tag = some (flushTagX undef (beforeFlushX s inp).accDelta
      (beforeFlushX s inp).lastLidClosed (toString inp.now)) ∧
    Effect.serialPrintln (">> " ++ flushTagX undef (beforeFlushX s inp).accDelta
      (beforeFlushX s inp).lastLidClosed (toString inp.now) ++ connSuffix s.deviceConnected)
      ∈ (loopX undef s inp).2.effects := by
  have hdc := (beforeFlushX_fields s inp).2
  unfold beforeFlushX at h hlen hdc
  simp only [loopX, flushBlockX, if_pos h, beforeFlushX]
  rw [if_pos hlen, hdc]
  simp

theorem loopX_silent_of_guard {undef : Int} {s : StateX} {inp : InputX}
    (h : flushGuardX (beforeFlushX s inp) inp.now)
    (hempty : flushTagX undef (beforeFlushX s inp).accDelta (beforeFlushX s inp).lastLidClosed
      (toString inp.now) = "") :
    (loopX undef s inp).2.tag = none ∧
    (loopX undef s inp).2.effects = (lidBlockX s inp.pinLow).2.effects := by
  unfold beforeFlushX at h hempty
  simp only [loopX, flushBlockX, if_pos h, beforeFlushX]
  rw [hempty]
  simp

/-- C12, as the code has it: in every iteration in which the flush guard holds, `accDelta` is
reset to 0; exactly one of the four branches is taken, the tag is not empty and it is emitted
(recorded and printed on the serial line) whenever `accDelta` is not NaN.  When `accDelta` is
NaN the guard holds as well (`accDelta != 0.0f` is true), none of the four branches is taken,
the tag stays empty, and the test `tag.length()` skips the emission: the flush resets
`accDelta` without an event. -/
theorem C12_kindless_flush_only_for_nan (undef : Int) (s : StateX) (inp : InputX)
    (h : flushGuardX (beforeFlushX s inp) inp.now) :
    (loopX undef s inp).2.flushed = true ∧
    (loopX undef s inp).1.accDelta = FloatX.fin 0 ∧
    ((beforeFlushX s inp).accDelta ≠ FloatX.nan →
      (branchConditionsX (beforeFlushX s inp).accDelta
        (beforeFlushX s inp).lastLidClosed).count true = 1 ∧
      (flushTagX undef (beforeFlushX s inp).accDelta (beforeFlushX s inp).lastLidClosed
        (toString inp.now)).length ≠ 0 ∧
      (loopX undef s inp).2.tag = some (flushTagX undef (beforeFlushX s inp).accDelta
        (beforeFlushX s inp).lastLidClosed (toString inp.now)) ∧
      Effect.serialPrintln (">> " ++ flushTagX undef (beforeFlushX s inp).accDelta
        (beforeFlushX s inp).lastLidClosed (toString inp.now) ++ connSuffix s.deviceConnected)
        ∈ (loopX undef s inp).2.effects) ∧
    ((beforeFlushX s inp).accDelta = FloatX.nan →
      (branchConditionsX (beforeFlushX s inp).accDelta
        (beforeFlushX s inp).lastLidClosed).count true = 0 ∧
      flushTagX undef (beforeFlushX s inp).accDelta (beforeFlushX s inp).lastLidClosed
        (toString inp.now) = "" ∧
      (loopX undef s inp).2.tag = none ∧
      (loopX undef s inp).2.effects = (lidBlockX s inp.pinLow).2.effects) := by
  obtain ⟨hst, hfl⟩ := @loopX_of_guard undef s inp h
  obtain ⟨hc1, hc0⟩ := branchConditionsX_count (beforeFlushX s inp).accDelta
    (beforeFlushX s inp).lastLidClosed h.1
  obtain ⟨hl1, hl0⟩ := flushTagX_length undef (beforeFlushX s inp).accDelta
    (beforeFlushX s inp).lastLidClosed (toString inp.now) h.1
  refine ⟨hfl, by rw [hst], ?_, ?_⟩
  · intro hnan
    obtain ⟨ht, hp⟩ := loopX_emits_of_guard h (hl1 hnan)
    exact ⟨hc1 hnan, hl1 hnan, ht, hp⟩
  · intro hnan
    obtain ⟨ht, he⟩ := loopX_silent_of_guard h (hl0 hnan)
    exact ⟨hc0 hnan, hl0 hnan, ht, he⟩

/-- Witness of C12: the flush of `pendingFifty` (a finite `accDelta`) at 7000 ms takes the
first branch only and emits `DRINKING_50_ml@7000`; the flush of the NaN left by
`infiniteReadingRun` takes no branch and emits no tag. -/
theorem C12_kindless_flush_only_for_nan_witness :
    (flushGuardX (beforeFlushX pendingFifty.toX at7000.toX) at7000.toX.now ∧
      (beforeFlushX pendingFifty.toX at7000.toX).accDelta ≠ FloatX.nan ∧
      branchConditionsX (beforeFlushX pendingFifty.toX at7000.toX).accDelta
        (beforeFlushX pendingFifty.toX at7000.toX).lastLidClosed =
        [true, false, false, false] ∧
      (loopX 0 pendingFifty.toX at7000.toX).2.tag = some "DRINKING_50_ml@7000" ∧
      Effect.serialPrintln ">> DRINKING_50_ml@7000 (Notified)"
        ∈ (loopX 0 pendingFifty.toX at7000.toX).2.effects) ∧
    (flushGuardX (beforeFlushX (runX 0 mug500.toX infiniteReadingRun) at9000X) at9000X.now ∧
      (beforeFlushX (runX 0 mug500.toX infiniteReadingRun) at9000X).accDelta = FloatX.nan ∧
      (loopX 0 (runX 0 mug500.toX infiniteReadingRun) at9000X).2.tag = none) :=
  ⟨⟨by decide!, by decide!, by decide!,
    ((C12_kindless_flush_only_for_nan 0 pendingFifty.toX at7000.toX (by decide!)).2.2.1
      (by decide!)).2.2.1.trans (by decide!),
    ((C12_kindless_flush_only_for_nan 0 pendingFifty.toX at7000.toX (by decide!)).2.2.1
      (by decide!)).2.2.2⟩,
   ⟨by decide!, by decide!,
    ((C12_kindless_flush_only_for_nan 0 (runX 0 mug500.toX infiniteReadingRun) at9000X
      (by decide!)).2.2.2 (by decide!)).2.2.1⟩⟩

/-- C12 as stated fails: from `mug500` the scale returns `+inf` at 2000 ms (`accDelta`
becomes `+inf`) and 500 g at 4000 ms (the delta is `-inf` and `accDelta` becomes NaN).  At
9000 ms the guard holds, none of the four branch conditions is true, no tag is emitted and
nothing is printed or notified, and `accDelta` is reset to 0.  (The value given for the
undefined conversion is never used in this run.) -/
theorem C12_nan_flush_counterexample :
    (runX 0 mug500.toX infiniteReadingRun).accDelta = FloatX.nan ∧
    (beforeFlushX (runX 0 mug500.toX infiniteReadingRun) at9000X).accDelta = FloatX.nan ∧
    flushGuardX (beforeFlushX (runX 0 mug500.toX infiniteReadingRun) at9000X) at9000X.now ∧
    branchConditionsX (beforeFlushX (runX 0 mug500.toX infiniteReadingRun) at9000X).accDelta
      (beforeFlushX (runX 0 mug500.toX infiniteReadingRun) at9000X).lastLidClosed =
      [false, false, false, false] ∧
    (loopX 0 (runX 0 mug500.toX infiniteReadingRun) at9000X).2.flushed = true ∧
    (loopX 0 (runX 0 mug500.toX infiniteReadingRun) at9000X).2.tag = none ∧
    (loopX 0 (runX 0 mug500.toX infiniteReadingRun) at9000X).2.effects = [] ∧
    (loopX 0 (runX 0 mug500.toX infiniteReadingRun) at9000X).1.accDelta = FloatX.fin 0 := by
  decide!

end CUPesp32
